import Mathlib

/-! # Decade statistics of `open_mp.c`

A shallow embedding of `src/open_mp.c`: the CSV reader `read_csv`, the two
accumulation passes of `main` (price pass and return pass), the merge of the
per-thread partial accumulators inside the critical section, and the
finalization loop that prints one block per non-empty decade.

Modelling conventions:

* A C `double` is modelled as an exact rational (`ℚ`): `+`, `-`, `*`, `/` and
  the comparisons are the exact ones, rounding is not modelled.  `sqrt` is
  taken as a parameter `csqrt : ℚ → ℚ`; `pow (x, 252.0)` is `x ^ 252`.
* The accumulators hold the sums in exact arithmetic.  The high and the low
  of a row are not bounded by the code, so the price sum can leave the range
  of doubles; the array `sum_avg` is therefore embedded a second time with
  the overflow of doubles (`price_step_double` and what follows it), where a
  cell is `some x` for a finite double and `none` for an infinity or a NaN.
  Where the highs and lows are not negative and the total stays below the
  overflow bound, the two embeddings agree (`price_pass_double_sum`).
* The `long` counters are natural numbers (they only ever grow by one, and
  the `int` bounds on the number of files and on the rows of a file keep them
  below `2 ^ 62`).
* The arrays of `MAX_DECADES` cells are functions of the index; the code only
  ever touches indices below `MAX_DECADES`.
* A file is the text `fopen` would give access to, or `none` when `fopen`
  fails.  The conversion `sscanf (line, "%19[^,],%lf,%lf,%lf,%lf,%lf,%lf", ..)`
  belongs to libc and turns text into doubles; it is a parameter `scan`,
  which answers `some row` exactly when `sscanf` returns 7.
* The OpenMP schedule is a parameter: the list of the threads in the order
  in which they enter the critical section, each with the files it
  processed, in order.
-/

namespace OpenMp

/-! ## Constants (lines 8-13) -/

def MAX_LINE_LEN : Nat := 256

def MIN_PRICE : ℚ := 1 / 100

def MAX_PRICE : ℚ := 10000

def MIN_YEAR_GLOBAL : Int := 1900

def MAX_YEAR_GLOBAL : Int := 2100

def MAX_DECADES : Nat := (((MAX_YEAR_GLOBAL - MIN_YEAR_GLOBAL).tdiv 10) + 1).toNat

/-! ## Rows (lines 15-18) -/

/-- The struct `StockData`; the field `open` of the source is `open_` here
(`open` is reserved). -/
structure StockData where
  date : String
  open_ : ℚ
  high : ℚ
  low : ℚ
  close : ℚ
  volume : ℚ

/-! ## `sscanf (date, "%d", &year)` (lines 108 and 121) -/

/-- The white-space characters of `isspace` in the C locale. -/
def isspace (c : Char) : Bool :=
  c == ' ' || c == '\t' || c == '\n' || c == '\x0b' || c == '\x0c' || c == '\r'

/-- Value of a run of decimal digits. -/
def digits_value (ds : List Char) : Nat :=
  ds.foldl (fun v c => 10 * v + (c.toNat - 48)) 0

/-- Conversion of an out-of-range value as glibc does it on LP64: `strtol`
saturates at the bounds of `long`, the result is then stored through an
`int *` and keeps its low 32 bits. -/
def store_int (v : Int) : Int :=
  let l := max (-(2 ^ 63)) (min v (2 ^ 63 - 1))
  (l + 2 ^ 31) % 2 ^ 32 - 2 ^ 31

/-- The call `sscanf (s, "%d", &year)`: `some year` when it returns 1.
Leading white space is skipped, one sign is accepted, and at least one
decimal digit must follow. -/
def sscanf_d (s : String) : Option Int :=
  let body := s.toList.dropWhile isspace
  let signed : Bool × List Char :=
    match body with
    | '-' :: t => (true, t)
    | '+' :: t => (false, t)
    | _ => (false, body)
  let ds := signed.2.takeWhile Char.isDigit
  if ds.isEmpty then none
  else
    let v : Int := digits_value ds
    some (store_int (if signed.1 then -v else v))

/-! ## Decade of a year (lines 109-110 and 122-123) -/

/-- The range test and the bucket index, `none` where the source executes
`continue`. -/
def classify (year : Int) : Option Nat :=
  if year < MIN_YEAR_GLOBAL ∨ year > MAX_YEAR_GLOBAL then none
  else some ((year - MIN_YEAR_GLOBAL).tdiv 10).toNat

/-- The bucket of a row: `sscanf` of its date, then the range test. -/
def bucket_of (r : StockData) : Option Nat :=
  match sscanf_d r.date with
  | none => none
  | some year => classify year

/-! ## Accumulators (lines 79-83 and 92-96) -/

/-- The five arrays of a thread (`loc_sum_avg`, `loc_rows`, `loc_sum_ret`,
`loc_sum_ret_sq`, `loc_ret`) or the five global ones (`global_sum_avg`,
`global_count_rows`, `global_sum_ret`, `global_sum_ret_sq`,
`global_count_ret`). -/
@[ext]
structure Accumulator where
  sum_avg : Nat → ℚ
  count_rows : Nat → Nat
  sum_ret : Nat → ℚ
  sum_ret_sq : Nat → ℚ
  count_ret : Nat → Nat

/-- The initializer `= {0}` of all five arrays. -/
def Accumulator.empty : Accumulator :=
  { sum_avg := fun _ => 0
    count_rows := fun _ => 0
    sum_ret := fun _ => 0
    sum_ret_sq := fun _ => 0
    count_ret := fun _ => 0 }

/-- The assignment `a[d] += x`. -/
def add_at {α : Type} [Add α] (a : Nat → α) (d : Nat) (x : α) : Nat → α :=
  fun k => if k = d then a k + x else a k

/-! ## Price pass (lines 106-117) -/

/-- Body of the first loop for one row, in exact arithmetic; the overflow of
the sum of line 114 is in `price_step_double`. -/
def price_step (loc : Accumulator) (r : StockData) : Accumulator :=
  match bucket_of r with
  | none => loc
  | some d =>
    let o := r.open_
    let c := r.close
    if o ≥ MIN_PRICE ∧ o ≤ MAX_PRICE ∧ c ≥ MIN_PRICE ∧ c ≤ MAX_PRICE then
      { loc with
        sum_avg := add_at loc.sum_avg d ((r.open_ + r.high + r.low + r.close) / 4)
        count_rows := add_at loc.count_rows d 1 }
    else loc

/-- The loop `for (j = 0; j < n; j++)`. -/
def price_pass (loc : Accumulator) (data : List StockData) : Accumulator :=
  data.foldl price_step loc

/-! ## Return pass (lines 119-135) -/

/-- Body of the second loop for the rows `data[j]` and `data[j+1]`. -/
def return_step (loc : Accumulator) (cur next : StockData) : Accumulator :=
  match bucket_of cur with
  | none => loc
  | some d =>
    let p := cur.close
    let q := next.close
    if p ≥ MIN_PRICE ∧ q ≥ MIN_PRICE ∧ p ≠ 0 then
      let r := (q - p) / p
      if |r| ≤ 1 then
        { loc with
          sum_ret := add_at loc.sum_ret d r
          sum_ret_sq := add_at loc.sum_ret_sq d (r * r)
          count_ret := add_at loc.count_ret d 1 }
      else loc
    else loc

/-- Body of the second loop at index `j`. -/
def return_at (data : List StockData) (loc : Accumulator) (j : Nat) : Accumulator :=
  match data[j]?, data[j + 1]? with
  | some cur, some next => return_step loc cur next
  | _, _ => loc

/-- The loop `for (j = 0; j < n - 1; j++)`. -/
def return_pass (loc : Accumulator) (data : List StockData) : Accumulator :=
  (List.range (data.length - 1)).foldl (return_at data) loc

/-! ## `read_csv` (lines 20-48) -/

/-- The successive results of `fgets (line, sizeof (line), file)` until it
returns `NULL`: a chunk ends after a newline or when `MAX_LINE_LEN - 1`
characters have been stored.  `cur` holds the current chunk, reversed. -/
def fgets_chunks : List Char → List Char → List (List Char)
  | [], cur => if cur.isEmpty then [] else [cur.reverse]
  | c :: s, cur =>
    if c = '\n' ∨ cur.length + 1 = MAX_LINE_LEN - 1 then
      (c :: cur).reverse :: fgets_chunks s []
    else fgets_chunks s (c :: cur)

/-- One round of the `while` loop: the array is allocated if it was not, and
the row is kept when the conversion delivers all seven fields. -/
def read_csv_step (scan : List Char → Option StockData)
    (data : Option (List StockData)) (line : List Char) : Option (List StockData) :=
  let rows := data.getD []
  match scan line with
  | some r => some (rows ++ [r])
  | none => some rows

/-- The function `read_csv`: the returned count and what `*data_out` holds
afterwards (`none` for `NULL`, which the caller put there beforehand). -/
def read_csv (scan : List Char → Option StockData) (file : Option (List Char)) :
    Nat × Option (List StockData) :=
  match file with
  | none => (0, none)
  | some text =>
    let lines := (fgets_chunks text []).drop 1
    let data := lines.foldl (read_csv_step scan) none
    ((data.getD []).length, data)

/-! ## The parallel region (lines 90-157) -/

/-- The rest of one iteration of the `omp for` loop, once `read_csv` has
answered `res` (lines 102-135). -/
def accumulate_file (loc : Accumulator) (res : Nat × Option (List StockData)) : Accumulator :=
  match res with
  | (_, none) => loc
  | (n, some data) =>
    if n ≤ 1 then loc
    else return_pass (price_pass loc data) data

/-- One iteration of the `omp for` loop over the files. -/
def process_file (scan : List Char → Option StockData) (loc : Accumulator)
    (file : Option (List Char)) : Accumulator :=
  accumulate_file loc (read_csv scan file)

/-- What one thread holds when it reaches the critical section, having
processed `files` in this order. -/
def worker (scan : List Char → Option StockData) (files : List (Option (List Char))) :
    Accumulator :=
  files.foldl (process_file scan) Accumulator.empty

/-- The critical section (lines 149-155). -/
def merge (g loc : Accumulator) : Accumulator :=
  { sum_avg := fun d => g.sum_avg d + loc.sum_avg d
    count_rows := fun d => g.count_rows d + loc.count_rows d
    sum_ret := fun d => g.sum_ret d + loc.sum_ret d
    sum_ret_sq := fun d => g.sum_ret_sq d + loc.sum_ret_sq d
    count_ret := fun d => g.count_ret d + loc.count_ret d }

/-- The global arrays after the parallel region, for the schedule `sched`. -/
def parallel_region (scan : List Char → Option StockData)
    (sched : List (List (Option (List Char)))) : Accumulator :=
  (sched.map (worker scan)).foldl merge Accumulator.empty

/-! ## Finalization (lines 161-192) -/

/-- What one printed block shows; `none` stands for the text `N/A`. -/
structure DecadeStatistics where
  start_year : Int
  end_year : Int
  rows : Nat
  mean_price : ℚ
  vol : ℚ
  mean_r : Option ℚ
  annual_r : Option ℚ

/-- The unclamped `var` of line 172. -/
def raw_var (sum_ret sum_ret_sq : ℚ) (rets : Nat) : ℚ :=
  let mean_r := sum_ret / rets
  let mean_r2 := sum_ret_sq / rets
  mean_r2 - mean_r * mean_r

/-- The argument handed to `sqrt` (lines 170-173). -/
def clamped_var (sum_ret sum_ret_sq : ℚ) (rets : Nat) : ℚ :=
  let var := raw_var sum_ret sum_ret_sq rets
  if var < 0 then 0 else var

/-- One iteration of the finalization loop, `none` at `continue`.  The
triple holds `vol`, `mean_r` and `annual_r`. -/
def report_decade (csqrt : ℚ → ℚ) (g : Accumulator) (d : Nat) : Option DecadeStatistics :=
  let rows := g.count_rows d
  if rows = 0 then none
  else
    let mean_price := g.sum_avg d / rows
    let rets := g.count_ret d
    let stats : ℚ × ℚ × ℚ :=
      if rets > 0 then
        let mean_r := g.sum_ret d / rets
        let vol := csqrt (clamped_var (g.sum_ret d) (g.sum_ret_sq d) rets)
        let annual_r := (1 + mean_r) ^ 252 - 1
        (vol, mean_r, annual_r)
      else (0, 0, 0)
    let start_year := MIN_YEAR_GLOBAL + d * 10
    let end_year := start_year + 9
    some
      { start_year := start_year
        end_year := end_year
        rows := rows
        mean_price := mean_price
        vol := stats.1
        mean_r := if rets > 0 then some stats.2.1 else none
        annual_r := if rets > 0 then some stats.2.2 else none }

/-- The loop `for (d = 0; d < MAX_DECADES; d++)`: the printed blocks. -/
def finalize (csqrt : ℚ → ℚ) (g : Accumulator) : List DecadeStatistics :=
  (List.range MAX_DECADES).filterMap (report_decade csqrt g)

/-- A rational square root by integer square roots, exact on squares. -/
def sqrt_floor (x : ℚ) : ℚ :=
  (Nat.sqrt (x.num.toNat * x.den) : ℚ) / x.den

/-! ## An instance of the line conversion -/

/-- The conversion `%lf` on a plain decimal numeral: white space is skipped,
one sign is accepted, then digits with an optional fractional part; the value
and the unread text.  Exponents, hexadecimal numerals, `inf` and `nan` are
outside this instance. -/
def scan_lf (s : List Char) : Option (ℚ × List Char) :=
  let body := s.dropWhile isspace
  let signed : Bool × List Char :=
    match body with
    | '-' :: t => (true, t)
    | '+' :: t => (false, t)
    | _ => (false, body)
  let ip := signed.2.takeWhile Char.isDigit
  let r1 := signed.2.dropWhile Char.isDigit
  let frac : List Char × List Char :=
    match r1 with
    | '.' :: t => (t.takeWhile Char.isDigit, t.dropWhile Char.isDigit)
    | _ => ([], r1)
  if ip.isEmpty ∧ frac.1.isEmpty then none
  else
    let v : ℚ := (digits_value ip : ℚ) + (digits_value frac.1 : ℚ) / 10 ^ frac.1.length
    some (if signed.1 then -v else v, frac.2)

/-- The literal `,` of the format. -/
def scan_comma : List Char → Option (List Char)
  | ',' :: t => some t
  | _ => none

/-- The call of line 39 on lines whose six numeric fields are plain decimal
numerals: `%19[^,]` takes one to nineteen characters other than a comma, the
sixth number (adjusted close) is read and dropped.  It is used as the
instance of `scan` in the examples. -/
def scan_plain (line : List Char) : Option StockData :=
  let date := (line.takeWhile (fun c => c != ',')).take 19
  if date.isEmpty then none
  else do
    let r ← scan_comma (line.drop date.length)
    let (o, r) ← scan_lf r
    let r ← scan_comma r
    let (h, r) ← scan_lf r
    let r ← scan_comma r
    let (l, r) ← scan_lf r
    let r ← scan_comma r
    let (c, r) ← scan_lf r
    let r ← scan_comma r
    let (_, r) ← scan_lf r
    let r ← scan_comma r
    let (v, _) ← scan_lf r
    some { date := String.mk date, open_ := o, high := h, low := l, close := c, volume := v }

/-- A file of three rows of the 1990s. -/
def file_1990s : Option (List Char) :=
  some ("Date,Open,High,Low,Close,Adj Close,Volume\n" ++
    "1995-01-03,100,101,99,100,100,5000\n" ++
    "1996-01-03,100.5,106,99,105,105,5000\n" ++
    "1997-01-03,104,111,99.25,110,110,5000\n").toList

/-- A file of two rows, one of 1999 and one of 2000. -/
def file_2000 : Option (List Char) :=
  some ("Date,Open,High,Low,Close,Adj Close,Volume\n" ++
    "1999-12-31,50,51,49,50,50,100\n" ++
    "2000-01-03,50,56,49,55,55,100\n").toList

/-- A file of a header and a single row. -/
def file_one_row : Option (List Char) :=
  some ("Date,Open,High,Low,Close,Adj Close,Volume\n" ++
    "1995-01-03,100,101,99,100,100,5000\n").toList

/-! ## The properties in the words of the specification -/

/-- The mid price of a row: the mean of open, high, low and close. -/
def mid_price (r : StockData) : ℚ :=
  (r.open_ + r.high + r.low + r.close) / 4

/-- A row counts for bucket `d` in the price pass: its year classifies to
`d`, and open and close both lie in `[0.01, 10000.0]`. -/
def price_counted (d : Nat) (r : StockData) : Bool :=
  decide (bucket_of r = some d ∧ 1 / 100 ≤ r.open_ ∧ r.open_ ≤ 10000 ∧
    1 / 100 ≤ r.close ∧ r.close ≤ 10000)

/-- The simple return of a pair of consecutive rows. -/
def simple_return (cur next : StockData) : ℚ :=
  (next.close - cur.close) / cur.close

/-- A pair of consecutive rows counts for bucket `d` in the return pass: the
year of the first row classifies to `d`, both closes are at least `0.01`, and
the return is at most 1 in absolute value. -/
def return_counted (d : Nat) (cur next : StockData) : Bool :=
  decide (bucket_of cur = some d ∧ 1 / 100 ≤ cur.close ∧ 1 / 100 ≤ next.close ∧
    |simple_return cur next| ≤ 1)

/-- The pair at the indices `j`, `j + 1` of `data` counts for bucket `d`. -/
def pair_counted (data : List StockData) (d j : Nat) : Bool :=
  match data[j]?, data[j + 1]? with
  | some cur, some next => return_counted d cur next
  | _, _ => false

/-- The return of the pair at the indices `j`, `j + 1` of `data`. -/
def pair_return (data : List StockData) (j : Nat) : ℚ :=
  match data[j]?, data[j + 1]? with
  | some cur, some next => simple_return cur next
  | _, _ => 0

/-- Rows with the closes 100, 110, 90, the first in the 1990s, the second in
the 2000s and the third in the 2010s. -/
def closes_100_110_90 : List StockData :=
  [ { date := "1999-12-31", open_ := 100, high := 100, low := 100, close := 100, volume := 1 },
    { date := "2000-01-03", open_ := 110, high := 110, low := 110, close := 110, volume := 1 },
    { date := "2010-01-04", open_ := 90, high := 90, low := 90, close := 90, volume := 1 } ]

/-- Sample rows: three in the 1990s, one of 1899 and one whose open is above
the price bound. -/
def sample_rows : List StockData :=
  [ { date := "1995-01-03", open_ := 100, high := 101, low := 99, close := 100, volume := 5 },
    { date := "1996-01-03", open_ := 100, high := 106, low := 99, close := 105, volume := 5 },
    { date := "1899-01-03", open_ := 100, high := 106, low := 99, close := 105, volume := 5 },
    { date := "1997-01-03", open_ := 20000, high := 106, low := 99, close := 105, volume := 5 },
    { date := "1997-01-04", open_ := 100, high := 111, low := 99, close := 110, volume := 5 } ]

/-- The rows `read_csv` delivers for a file (none for `NULL`). -/
def parsed_rows (scan : List Char → Option StockData) (file : Option (List Char)) :
    List StockData :=
  (read_csv scan file).2.getD []

/-- All the rows of all the files of a schedule. -/
def all_rows (scan : List Char → Option StockData)
    (sched : List (List (Option (List Char)))) : List StockData :=
  (sched.flatten.map (parsed_rows scan)).flatten

/-- The year of the row is read and lies in 1900..2100. -/
def year_in_range (r : StockData) : Bool :=
  match sscanf_d r.date with
  | some year => decide (1900 ≤ year ∧ year ≤ 2100)
  | none => false

/-- The year of the row is in range and open, high, low and close all lie in
`[0.01, 10000.0]`. -/
def valid_row (r : StockData) : Bool :=
  year_in_range r &&
    decide (1 / 100 ≤ r.open_ ∧ r.open_ ≤ 10000 ∧ 1 / 100 ≤ r.high ∧ r.high ≤ 10000 ∧
      1 / 100 ≤ r.low ∧ r.low ≤ 10000 ∧ 1 / 100 ≤ r.close ∧ r.close ≤ 10000)

/-- The row belongs to bucket `d`. -/
def in_bucket (d : Nat) (r : StockData) : Bool :=
  decide (bucket_of r = some d)

/-- Global arrays whose bucket 0 holds one row and one return with
`sum_ret = 1` and `sum_ret_sq = 0`, so that the unclamped variance there is
`0 / 1 - 1 * 1 = -1`. -/
def negative_var_acc : Accumulator :=
  { sum_avg := fun d => if d = 0 then 50 else 0
    count_rows := fun d => if d = 0 then 1 else 0
    sum_ret := fun d => if d = 0 then 1 else 0
    sum_ret_sq := fun _ => 0
    count_ret := fun d => if d = 0 then 1 else 0 }

/-- The year of the row is read and lies below 1900 or above 2100. -/
def out_of_range (r : StockData) : Bool :=
  match sscanf_d r.date with
  | some year => decide (year < 1900 ∨ 2100 < year)
  | none => false

/-- A row of 1999 followed by a row of 1899 whose close is `c`. -/
def rows_1999_1899 (c : ℚ) : List StockData :=
  [ { date := "1999-12-31", open_ := 100, high := 100, low := 100, close := 100, volume := 1 },
    { date := "1899-12-31", open_ := 100, high := 100, low := 100, close := c, volume := 1 } ]


/-- The lines of a text: each ends after its newline, the last one may lack
it.  `cur` holds the current line, reversed. -/
def split_lines : List Char → List Char → List (List Char)
  | [], cur => if cur.isEmpty then [] else [cur.reverse]
  | c :: s, cur =>
    if c = '\n' then (c :: cur).reverse :: split_lines s []
    else split_lines s (c :: cur)

/-- A text whose first line already is a row, then a row, a line that is not
a row, and a last row. -/
def text_row_first : List Char :=
  ("1994-01-03,90,91,89,90,90,10\n" ++
    "1995-01-03,100,101,99,100,100,5000\n" ++
    "not a row\n" ++
    "1996-01-03,100.5,106,99,105,105,5000\n").toList

/-- The text `text_row_first` with other adjusted closes. -/
def text_row_first_adj : List Char :=
  ("1994-01-03,90,91,89,90,90,10\n" ++
    "1995-01-03,100,101,99,100,33.3,5000\n" ++
    "not a row\n" ++
    "1996-01-03,100.5,106,99,105,7,5000\n").toList

/-- The returns that a file adds to bucket `d`, in file order (none when the
file is passed over). -/
def file_returns (scan : List Char → Option StockData) (d : Nat)
    (file : Option (List Char)) : List ℚ :=
  if 2 ≤ (read_csv scan file).1 then
    ((List.range ((parsed_rows scan file).length - 1)).filter
      (pair_counted (parsed_rows scan file) d)).map (pair_return (parsed_rows scan file))
  else []

/-- The returns that all the files of a schedule add to bucket `d`. -/
def all_returns (scan : List Char → Option StockData)
    (sched : List (List (Option (List Char)))) (d : Nat) : List ℚ :=
  (sched.flatten.map (file_returns scan d)).flatten


/-- Two rows of 1995 whose opens, 20000, are above the price bound, with the
closes 100 and 105. -/
def rows_open_20000 : List StockData :=
  [ { date := "1995-01-03", open_ := 20000, high := 20000, low := 99, close := 100, volume := 1 },
    { date := "1995-01-04", open_ := 20000, high := 20000, low := 99, close := 105, volume := 1 } ]

/-- Two rows of 1995 within the price bounds, with the closes 100 and 300. -/
def rows_jump : List StockData :=
  [ { date := "1995-01-03", open_ := 100, high := 100, low := 100, close := 100, volume := 1 },
    { date := "1995-01-04", open_ := 300, high := 300, low := 300, close := 300, volume := 1 } ]

/-- The file of the rows `rows_open_20000`. -/
def file_open_20000 : Option (List Char) :=
  some ("Date,Open,High,Low,Close,Adj Close,Volume\n" ++
    "1995-01-03,20000.0,20000.0,99,100,100,1\n" ++
    "1995-01-04,20000.0,20000.0,99,105,105,1\n").toList


/-! ## The price sums as doubles (lines 114, 150 and 165)

The cell `sum_avg` once more, now with the overflow of doubles: a double is
`some x` for a finite one, kept exact (rounding is not modelled), and `none`
for an infinity or a NaN.  The fields of a row are finite doubles. -/

/-- The magnitude from which rounding to nearest gives an infinity:
`DBL_MAX` plus half a unit in its last place, with
`DBL_MAX = 2 ^ 1024 - 2 ^ 971`. -/
def DBL_OVERFLOW : ℚ := ((2 ^ 1024 - 2 ^ 970 : Nat) : ℚ)

/-- The double that an operation with the exact result `x` delivers. -/
def dbl_of (x : ℚ) : Option ℚ :=
  if |x| < DBL_OVERFLOW then some x else none

/-- The sum of two doubles; an infinity or a NaN stays one. -/
def dbl_add : Option ℚ → Option ℚ → Option ℚ
  | some x, some y => dbl_of (x + y)
  | _, _ => none

/-- The quotient of a double by a finite double `k` with `1 ≤ k`. -/
def dbl_div (a : Option ℚ) (k : ℚ) : Option ℚ :=
  a.map (fun x => x / k)

/-- The expression `(open + high + low + close) / 4.0` of line 114, added
from left to right. -/
def mid_price_double (r : StockData) : Option ℚ :=
  dbl_div
    (dbl_add (dbl_add (dbl_add (some r.open_) (some r.high)) (some r.low)) (some r.close)) 4

/-- Body of the first loop for one row, on the array `loc_sum_avg`. -/
def price_step_double (sum_avg : Nat → Option ℚ) (r : StockData) : Nat → Option ℚ :=
  match bucket_of r with
  | none => sum_avg
  | some d =>
    let o := r.open_
    let c := r.close
    if o ≥ MIN_PRICE ∧ o ≤ MAX_PRICE ∧ c ≥ MIN_PRICE ∧ c ≤ MAX_PRICE then
      fun k => if k = d then dbl_add (sum_avg k) (mid_price_double r) else sum_avg k
    else sum_avg

/-- The loop `for (j = 0; j < n; j++)`, on the array `loc_sum_avg`. -/
def price_pass_double (sum_avg : Nat → Option ℚ) (data : List StockData) : Nat → Option ℚ :=
  data.foldl price_step_double sum_avg

/-- The rest of one iteration of the `omp for` loop, on the array
`loc_sum_avg` (the return pass does not touch it). -/
def accumulate_file_double (sum_avg : Nat → Option ℚ)
    (res : Nat × Option (List StockData)) : Nat → Option ℚ :=
  match res with
  | (_, none) => sum_avg
  | (n, some data) =>
    if n ≤ 1 then sum_avg
    else price_pass_double sum_avg data

/-- The sum `open + high + low + close` of a row. -/
def price_total (r : StockData) : ℚ :=
  r.open_ + r.high + r.low + r.close

/-- Two rows of the 1990s within the price bounds; the high and the low of
the first are `1e308`. -/
def rows_high_1e308 : List StockData :=
  [ { date := "1995-01-03", open_ := 100, high := ((10 ^ 308 : Nat) : ℚ),
      low := ((10 ^ 308 : Nat) : ℚ), close := 100, volume := 5 },
    { date := "1996-01-03", open_ := 100, high := 106, low := 99, close := 105, volume := 5 } ]

instance : Add Accumulator := ⟨merge⟩

instance : Zero Accumulator := ⟨Accumulator.empty⟩

instance : AddCommMonoid Accumulator where
  nsmul := nsmulRec
  add_assoc a b c := by
    ext d <;> exact add_assoc _ _ _
  zero_add a := by
    ext d <;> exact zero_add _
  add_zero a := by
    ext d <;> exact add_zero _
  add_comm a b := by
    ext d <;> exact add_comm _ _

theorem add_eq_merge (a b : Accumulator) : a + b = merge a b := rfl

theorem zero_eq_empty : (0 : Accumulator) = Accumulator.empty := rfl

@[simp] theorem add_sum_avg (a b : Accumulator) (d : Nat) :
    (a + b).sum_avg d = a.sum_avg d + b.sum_avg d := rfl

@[simp] theorem add_count_rows (a b : Accumulator) (d : Nat) :
    (a + b).count_rows d = a.count_rows d + b.count_rows d := rfl

@[simp] theorem add_sum_ret (a b : Accumulator) (d : Nat) :
    (a + b).sum_ret d = a.sum_ret d + b.sum_ret d := rfl

@[simp] theorem add_sum_ret_sq (a b : Accumulator) (d : Nat) :
    (a + b).sum_ret_sq d = a.sum_ret_sq d + b.sum_ret_sq d := rfl

@[simp] theorem add_count_ret (a b : Accumulator) (d : Nat) :
    (a + b).count_ret d = a.count_ret d + b.count_ret d := rfl

@[simp] theorem zero_sum_avg (d : Nat) : (0 : Accumulator).sum_avg d = 0 := rfl

@[simp] theorem zero_count_rows (d : Nat) : (0 : Accumulator).count_rows d = 0 := rfl

@[simp] theorem zero_sum_ret (d : Nat) : (0 : Accumulator).sum_ret d = 0 := rfl

@[simp] theorem zero_sum_ret_sq (d : Nat) : (0 : Accumulator).sum_ret_sq d = 0 := rfl

@[simp] theorem zero_count_ret (d : Nat) : (0 : Accumulator).count_ret d = 0 := rfl

theorem list_sum_sum_avg (l : List Accumulator) (d : Nat) :
    l.sum.sum_avg d = (l.map (fun a => a.sum_avg d)).sum := by
  induction l with
  | nil => rfl
  | cons a l ih => simp [ih]

theorem list_sum_count_rows (l : List Accumulator) (d : Nat) :
    l.sum.count_rows d = (l.map (fun a => a.count_rows d)).sum := by
  induction l with
  | nil => rfl
  | cons a l ih => simp [ih]

theorem list_sum_sum_ret (l : List Accumulator) (d : Nat) :
    l.sum.sum_ret d = (l.map (fun a => a.sum_ret d)).sum := by
  induction l with
  | nil => rfl
  | cons a l ih => simp [ih]

theorem list_sum_sum_ret_sq (l : List Accumulator) (d : Nat) :
    l.sum.sum_ret_sq d = (l.map (fun a => a.sum_ret_sq d)).sum := by
  induction l with
  | nil => rfl
  | cons a l ih => simp [ih]

theorem list_sum_count_ret (l : List Accumulator) (d : Nat) :
    l.sum.count_ret d = (l.map (fun a => a.count_ret d)).sum := by
  induction l with
  | nil => rfl
  | cons a l ih => simp [ih]

/-- A loop whose body adds a contribution computes the sum of the
contributions. -/
theorem foldl_additive {α : Type} (f : Accumulator → α → Accumulator)
    (hf : ∀ loc x, f loc x = loc + f 0 x) (l : List α) (loc : Accumulator) :
    l.foldl f loc = loc + (l.map (f 0)).sum := by
  induction l generalizing loc with
  | nil => simp
  | cons x l ih =>
    rw [List.foldl_cons, ih, hf loc x, List.map_cons, List.sum_cons, add_assoc]

theorem sum_map_ite {α M : Type} [AddMonoid M] (p : α → Bool) (f : α → M) (l : List α) :
    (l.map (fun x => if p x then f x else 0)).sum = ((l.filter p).map f).sum := by
  induction l with
  | nil => rfl
  | cons x l ih =>
    by_cases hx : p x
    · simp [hx, ih]
    · simp [hx, ih]

theorem sum_map_ite_one {α : Type} (p : α → Bool) (l : List α) :
    (l.map (fun x => if p x then 1 else 0)).sum = (l.filter p).length := by
  rw [sum_map_ite p (fun _ => 1) l]
  simp

/-! ## The price pass, additively -/

theorem price_step_add (loc : Accumulator) (r : StockData) :
    price_step loc r = loc + price_step 0 r := by
  unfold price_step
  cases bucket_of r with
  | none => simp
  | some d =>
    simp only []
    split_ifs
    · ext k <;> simp [add_at] <;> split_ifs <;> simp
    · simp

theorem price_pass_add (loc : Accumulator) (data : List StockData) :
    price_pass loc data = loc + (data.map (price_step 0)).sum :=
  foldl_additive price_step price_step_add data loc

theorem price_step_count_rows (r : StockData) (d : Nat) :
    (price_step 0 r).count_rows d = if price_counted d r then 1 else 0 := by
  unfold price_step price_counted
  cases hb : bucket_of r with
  | none => simp
  | some k =>
    simp only [MIN_PRICE, MAX_PRICE, ge_iff_le, decide_eq_true_eq, Option.some.injEq]
    by_cases hp : (1 : ℚ) / 100 ≤ r.open_ ∧ r.open_ ≤ 10000 ∧ 1 / 100 ≤ r.close ∧ r.close ≤ 10000
    · rw [if_pos hp]
      by_cases hk : k = d
      · rw [if_pos ⟨hk, hp⟩]
        simp [add_at, hk]
      · rw [if_neg (fun h => hk h.1)]
        simp [add_at, Ne.symm hk]
    · rw [if_neg hp, if_neg (fun h => hp h.2)]
      rfl

theorem price_step_sum_avg (r : StockData) (d : Nat) :
    (price_step 0 r).sum_avg d = if price_counted d r then mid_price r else 0 := by
  unfold price_step price_counted mid_price
  cases hb : bucket_of r with
  | none => simp
  | some k =>
    simp only [MIN_PRICE, MAX_PRICE, ge_iff_le, decide_eq_true_eq, Option.some.injEq]
    by_cases hp : (1 : ℚ) / 100 ≤ r.open_ ∧ r.open_ ≤ 10000 ∧ 1 / 100 ≤ r.close ∧ r.close ≤ 10000
    · rw [if_pos hp]
      by_cases hk : k = d
      · rw [if_pos ⟨hk, hp⟩]
        simp [add_at, hk]
      · rw [if_neg (fun h => hk h.1)]
        simp [add_at, Ne.symm hk]
    · rw [if_neg hp, if_neg (fun h => hp h.2)]
      rfl

theorem price_step_ret (r : StockData) (d : Nat) :
    (price_step 0 r).sum_ret d = 0 ∧ (price_step 0 r).sum_ret_sq d = 0 ∧
    (price_step 0 r).count_ret d = 0 := by
  unfold price_step
  cases bucket_of r with
  | none => simp
  | some k =>
    simp only []
    split_ifs <;> simp

/-! ## The return pass, additively -/

theorem return_step_fields (loc : Accumulator) (cur next : StockData) (d : Nat) :
    (return_step loc cur next).count_ret d
      = loc.count_ret d + (if return_counted d cur next then 1 else 0) ∧
    (return_step loc cur next).sum_ret d
      = loc.sum_ret d + (if return_counted d cur next then simple_return cur next else 0) ∧
    (return_step loc cur next).sum_ret_sq d
      = loc.sum_ret_sq d
        + (if return_counted d cur next then simple_return cur next * simple_return cur next
           else 0) ∧
    (return_step loc cur next).count_rows d = loc.count_rows d ∧
    (return_step loc cur next).sum_avg d = loc.sum_avg d := by
  unfold return_step return_counted simple_return
  cases hb : bucket_of cur with
  | none => simp
  | some k =>
    simp only [MIN_PRICE, ge_iff_le, decide_eq_true_eq, Option.some.injEq]
    by_cases hp : (1 : ℚ) / 100 ≤ cur.close ∧ 1 / 100 ≤ next.close ∧
        |(next.close - cur.close) / cur.close| ≤ 1
    · have hne : cur.close ≠ 0 := by
        have h0 : (0 : ℚ) < 1 / 100 := by norm_num
        exact ne_of_gt (lt_of_lt_of_le h0 hp.1)
      rw [if_pos ⟨hp.1, hp.2.1, hne⟩, if_pos hp.2.2]
      by_cases hk : k = d
      · rw [if_pos ⟨hk, hp⟩, if_pos ⟨hk, hp⟩, if_pos ⟨hk, hp⟩]
        simp [add_at, hk]
      · rw [if_neg (fun h => hk h.1), if_neg (fun h => hk h.1), if_neg (fun h => hk h.1)]
        simp [add_at, Ne.symm hk]
    · have hn : ¬ (k = d ∧ (1 : ℚ) / 100 ≤ cur.close ∧ 1 / 100 ≤ next.close ∧
          |(next.close - cur.close) / cur.close| ≤ 1) := fun h => hp h.2
      rw [if_neg hn, if_neg hn, if_neg hn]
      by_cases hq : (1 : ℚ) / 100 ≤ cur.close ∧ 1 / 100 ≤ next.close ∧ cur.close ≠ 0
      · have hr : ¬ |(next.close - cur.close) / cur.close| ≤ 1 :=
          fun h => hp ⟨hq.1, hq.2.1, h⟩
        rw [if_pos hq, if_neg hr]
        simp
      · rw [if_neg hq]
        simp

theorem return_step_add (loc : Accumulator) (cur next : StockData) :
    return_step loc cur next = loc + return_step 0 cur next := by
  have h := fun d => return_step_fields loc cur next d
  have h0 := fun d => return_step_fields 0 cur next d
  ext d
  · rw [add_sum_avg, (h d).2.2.2.2, (h0 d).2.2.2.2, zero_sum_avg, add_zero]
  · rw [add_count_rows, (h d).2.2.2.1, (h0 d).2.2.2.1, zero_count_rows, add_zero]
  · rw [add_sum_ret, (h d).2.1, (h0 d).2.1, zero_sum_ret, zero_add]
  · rw [add_sum_ret_sq, (h d).2.2.1, (h0 d).2.2.1, zero_sum_ret_sq, zero_add]
  · rw [add_count_ret, (h d).1, (h0 d).1, zero_count_ret, zero_add]

theorem return_at_add (data : List StockData) (loc : Accumulator) (j : Nat) :
    return_at data loc j = loc + return_at data 0 j := by
  unfold return_at
  cases data[j]? with
  | none => simp
  | some cur =>
    cases data[j + 1]? with
    | none => simp
    | some next => exact return_step_add loc cur next

theorem return_pass_add (loc : Accumulator) (data : List StockData) :
    return_pass loc data
      = loc + ((List.range (data.length - 1)).map (return_at data 0)).sum :=
  foldl_additive (return_at data) (return_at_add data) _ loc

theorem return_at_fields (data : List StockData) (d j : Nat) :
    (return_at data 0 j).count_ret d = (if pair_counted data d j then 1 else 0) ∧
    (return_at data 0 j).sum_ret d
      = (if pair_counted data d j then pair_return data j else 0) ∧
    (return_at data 0 j).sum_ret_sq d
      = (if pair_counted data d j then pair_return data j * pair_return data j else 0) ∧
    (return_at data 0 j).count_rows d = 0 ∧
    (return_at data 0 j).sum_avg d = 0 := by
  unfold return_at pair_counted pair_return
  cases data[j]? with
  | none => simp
  | some cur =>
    cases data[j + 1]? with
    | none => simp
    | some next =>
      have h := return_step_fields 0 cur next d
      simpa using h

/-! ## One file, additively -/

theorem accumulate_file_add (loc : Accumulator) (res : Nat × Option (List StockData)) :
    accumulate_file loc res = loc + accumulate_file 0 res := by
  obtain ⟨n, data⟩ := res
  cases data with
  | none => simp [accumulate_file]
  | some data =>
    unfold accumulate_file
    simp only []
    split_ifs
    · simp
    · rw [return_pass_add, price_pass_add, return_pass_add, price_pass_add, zero_add, add_assoc]

theorem accumulate_file_two (data : List StockData) (n : Nat) (h : 2 ≤ n) :
    accumulate_file 0 (n, some data)
      = (data.map (price_step 0)).sum
        + ((List.range (data.length - 1)).map (return_at data 0)).sum := by
  unfold accumulate_file
  simp only []
  rw [if_neg (by omega), return_pass_add, price_pass_add, zero_add]

theorem accumulate_file_skip (loc : Accumulator) (n : Nat) (data : Option (List StockData))
    (h : n ≤ 1 ∨ data = none) : accumulate_file loc (n, data) = loc := by
  cases data with
  | none => rfl
  | some data =>
    rcases h with h | h
    · simp [accumulate_file, h]
    · cases h

/-- The totals of one file of at least two rows, bucket by bucket. -/
theorem accumulate_file_totals (data : List StockData) (h : 2 ≤ data.length) (d : Nat) :
    (accumulate_file 0 (data.length, some data)).count_rows d
      = (data.filter (price_counted d)).length ∧
    (accumulate_file 0 (data.length, some data)).sum_avg d
      = ((data.filter (price_counted d)).map mid_price).sum ∧
    (accumulate_file 0 (data.length, some data)).count_ret d
      = ((List.range (data.length - 1)).filter (pair_counted data d)).length ∧
    (accumulate_file 0 (data.length, some data)).sum_ret d
      = (((List.range (data.length - 1)).filter (pair_counted data d)).map
          (pair_return data)).sum ∧
    (accumulate_file 0 (data.length, some data)).sum_ret_sq d
      = (((List.range (data.length - 1)).filter (pair_counted data d)).map
          (fun j => pair_return data j * pair_return data j)).sum := by
  rw [accumulate_file_two data _ h]
  refine ⟨?_, ?_, ?_, ?_, ?_⟩
  · rw [add_count_rows, list_sum_count_rows, list_sum_count_rows, List.map_map, List.map_map]
    have h1 : ((fun a : Accumulator => a.count_rows d) ∘ price_step 0)
        = fun r => if price_counted d r then 1 else 0 :=
      funext fun r => price_step_count_rows r d
    have h2 : ((fun a : Accumulator => a.count_rows d) ∘ return_at data 0) = fun _ => 0 :=
      funext fun j => (return_at_fields data d j).2.2.2.1
    rw [h1, h2, sum_map_ite_one]
    simp
  · rw [add_sum_avg, list_sum_sum_avg, list_sum_sum_avg, List.map_map, List.map_map]
    have h1 : ((fun a : Accumulator => a.sum_avg d) ∘ price_step 0)
        = fun r => if price_counted d r then mid_price r else 0 :=
      funext fun r => price_step_sum_avg r d
    have h2 : ((fun a : Accumulator => a.sum_avg d) ∘ return_at data 0) = fun _ => 0 :=
      funext fun j => (return_at_fields data d j).2.2.2.2
    rw [h1, h2, sum_map_ite]
    simp
  · rw [add_count_ret, list_sum_count_ret, list_sum_count_ret, List.map_map, List.map_map]
    have h1 : ((fun a : Accumulator => a.count_ret d) ∘ price_step 0) = fun _ => 0 :=
      funext fun r => (price_step_ret r d).2.2
    have h2 : ((fun a : Accumulator => a.count_ret d) ∘ return_at data 0)
        = fun j => if pair_counted data d j then 1 else 0 :=
      funext fun j => (return_at_fields data d j).1
    rw [h1, h2, sum_map_ite_one]
    simp
  · rw [add_sum_ret, list_sum_sum_ret, list_sum_sum_ret, List.map_map, List.map_map]
    have h1 : ((fun a : Accumulator => a.sum_ret d) ∘ price_step 0) = fun _ => 0 :=
      funext fun r => (price_step_ret r d).1
    have h2 : ((fun a : Accumulator => a.sum_ret d) ∘ return_at data 0)
        = fun j => if pair_counted data d j then pair_return data j else 0 :=
      funext fun j => (return_at_fields data d j).2.1
    rw [h1, h2, sum_map_ite]
    simp
  · rw [add_sum_ret_sq, list_sum_sum_ret_sq, list_sum_sum_ret_sq, List.map_map, List.map_map]
    have h1 : ((fun a : Accumulator => a.sum_ret_sq d) ∘ price_step 0) = fun _ => 0 :=
      funext fun r => (price_step_ret r d).2.1
    have h2 : ((fun a : Accumulator => a.sum_ret_sq d) ∘ return_at data 0)
        = fun j => if pair_counted data d j then pair_return data j * pair_return data j
            else 0 :=
      funext fun j => (return_at_fields data d j).2.2.1
    rw [h1, h2, sum_map_ite]
    simp

/-! ## Threads and the merge, additively -/

theorem process_file_add (scan : List Char → Option StockData) (loc : Accumulator)
    (file : Option (List Char)) :
    process_file scan loc file = loc + process_file scan 0 file :=
  accumulate_file_add loc (read_csv scan file)

theorem worker_eq_sum (scan : List Char → Option StockData)
    (files : List (Option (List Char))) :
    worker scan files = (files.map (process_file scan 0)).sum := by
  unfold worker
  rw [← zero_eq_empty, foldl_additive (process_file scan) (process_file_add scan), zero_add]

theorem foldl_merge (l : List Accumulator) (g : Accumulator) :
    l.foldl merge g = g + l.sum := by
  induction l generalizing g with
  | nil => simp
  | cons a l ih => rw [List.foldl_cons, ih, ← add_eq_merge, List.sum_cons, add_assoc]

theorem parallel_region_eq_sum (scan : List Char → Option StockData)
    (sched : List (List (Option (List Char)))) :
    parallel_region scan sched = (sched.flatten.map (process_file scan 0)).sum := by
  unfold parallel_region
  rw [← zero_eq_empty, foldl_merge, zero_add, List.map_flatten, List.sum_flatten, List.map_map]
  congr 1
  apply List.map_congr_left
  intro files _
  exact worker_eq_sum scan files

/-! ## The finalization loop -/

theorem report_decade_of_rows (csqrt : ℚ → ℚ) (g : Accumulator) (d : Nat)
    (h : g.count_rows d ≠ 0) :
    ∃ e, report_decade csqrt g d = some e ∧
      e.start_year = 1900 + 10 * (d : Int) ∧ e.end_year = 1900 + 10 * (d : Int) + 9 ∧
      e.rows = g.count_rows d ∧
      e.mean_price = g.sum_avg d / g.count_rows d ∧
      e.vol = (if g.count_ret d > 0 then
          csqrt (clamped_var (g.sum_ret d) (g.sum_ret_sq d) (g.count_ret d)) else 0) ∧
      e.mean_r = (if g.count_ret d > 0 then some (g.sum_ret d / g.count_ret d) else none) ∧
      e.annual_r = (if g.count_ret d > 0 then
          some ((1 + g.sum_ret d / g.count_ret d) ^ 252 - 1) else none) := by
  unfold report_decade
  simp only []
  rw [if_neg h]
  refine ⟨_, rfl, ?_, ?_, rfl, rfl, ?_, ?_, ?_⟩
  · simp only [MIN_YEAR_GLOBAL]
    ring
  · simp only [MIN_YEAR_GLOBAL]
    ring
  · by_cases hr : g.count_ret d > 0
    · simp [hr]
    · simp [hr]
  · by_cases hr : g.count_ret d > 0
    · simp [hr]
    · simp [hr]
  · by_cases hr : g.count_ret d > 0
    · simp [hr]
    · simp [hr]

theorem report_decade_of_no_rows (csqrt : ℚ → ℚ) (g : Accumulator) (d : Nat)
    (h : g.count_rows d = 0) : report_decade csqrt g d = none := by
  unfold report_decade
  simp only []
  rw [if_pos h]

theorem mem_finalize (csqrt : ℚ → ℚ) (g : Accumulator) (d : Nat) (hd : d < MAX_DECADES)
    (e : DecadeStatistics) (he : report_decade csqrt g d = some e) :
    e ∈ finalize csqrt g := by
  unfold finalize
  rw [List.mem_filterMap]
  exact ⟨d, List.mem_range.mpr hd, he⟩

theorem start_years_of_filterMap (csqrt : ℚ → ℚ) (g : Accumulator) (l : List Nat) :
    (l.filterMap (report_decade csqrt g)).map (fun e => e.start_year)
      = (l.filter (fun d => decide (0 < g.count_rows d))).map
          (fun d : Nat => 1900 + 10 * (d : Int)) := by
  induction l with
  | nil => rfl
  | cons a l ih =>
    by_cases h : g.count_rows a = 0
    · rw [List.filterMap_cons, report_decade_of_no_rows csqrt g a h]
      simp [h, ih]
    · obtain ⟨e, he, hs, -⟩ := report_decade_of_rows csqrt g a h
      rw [List.filterMap_cons, he]
      have hpos : 0 < g.count_rows a := Nat.pos_of_ne_zero h
      simp [hpos, ih, hs]

/-! ## Totals over all files -/

theorem classify_lt (year : Int) (d : Nat) (h : classify year = some d) : d < MAX_DECADES := by
  have h21 : MAX_DECADES = 21 := by decide
  unfold classify MIN_YEAR_GLOBAL MAX_YEAR_GLOBAL at h
  split_ifs at h with hy
  have hd : ((year - 1900).tdiv 10).toNat = d := by simpa using h
  have hnn : 0 ≤ year - 1900 := by omega
  rw [Int.tdiv_eq_ediv hnn (by norm_num)] at hd
  rw [h21]
  omega

theorem bucket_of_lt (r : StockData) (d : Nat) (h : bucket_of r = some d) :
    d < MAX_DECADES := by
  unfold bucket_of at h
  cases hy : sscanf_d r.date with
  | none => simp [hy] at h
  | some year =>
    rw [hy] at h
    exact classify_lt year d h

theorem read_csv_eq (scan : List Char → Option StockData) (file : Option (List Char))
    (h : 2 ≤ (read_csv scan file).1) :
    read_csv scan file = ((parsed_rows scan file).length, some (parsed_rows scan file)) := by
  unfold parsed_rows
  unfold read_csv at h ⊢
  cases file with
  | none => simp at h
  | some text =>
    simp only [] at h ⊢
    cases hdata : List.foldl (read_csv_step scan) none (List.drop 1 (fgets_chunks text [])) with
    | none =>
      rw [hdata] at h
      simp at h
    | some data => simp

theorem process_file_price_totals (scan : List Char → Option StockData)
    (file : Option (List Char)) (h : 2 ≤ (read_csv scan file).1) (d : Nat) :
    (process_file scan 0 file).count_rows d
      = ((parsed_rows scan file).filter (price_counted d)).length ∧
    (process_file scan 0 file).sum_avg d
      = (((parsed_rows scan file).filter (price_counted d)).map mid_price).sum := by
  have heq := read_csv_eq scan file h
  have hlen : 2 ≤ (parsed_rows scan file).length := by
    rw [heq] at h
    exact h
  unfold process_file
  rw [heq]
  have ht := accumulate_file_totals (parsed_rows scan file) hlen d
  exact ⟨ht.1, ht.2.1⟩

theorem files_price_totals (scan : List Char → Option StockData)
    (files : List (Option (List Char))) (h : ∀ f ∈ files, 2 ≤ (read_csv scan f).1) (d : Nat) :
    ((files.map (process_file scan 0)).sum).count_rows d
      = (((files.map (parsed_rows scan)).flatten).filter (price_counted d)).length ∧
    ((files.map (process_file scan 0)).sum).sum_avg d
      = ((((files.map (parsed_rows scan)).flatten).filter (price_counted d)).map
          mid_price).sum := by
  induction files with
  | nil => exact ⟨rfl, rfl⟩
  | cons f files ih =>
    have hf := process_file_price_totals scan f (h f (List.mem_cons_self f files)) d
    have ih2 := ih (fun g hg => h g (List.mem_cons_of_mem f hg))
    constructor
    · rw [List.map_cons, List.sum_cons, add_count_rows, hf.1, ih2.1, List.map_cons,
        List.flatten_cons, List.filter_append, List.length_append]
    · rw [List.map_cons, List.sum_cons, add_sum_avg, hf.2, ih2.2, List.map_cons,
        List.flatten_cons, List.filter_append, List.map_append, List.sum_append]

theorem list_sum_bounds (l : List ℚ) (a b : ℚ) (h : ∀ x ∈ l, a ≤ x ∧ x ≤ b) :
    (l.length : ℚ) * a ≤ l.sum ∧ l.sum ≤ (l.length : ℚ) * b := by
  induction l with
  | nil => simp
  | cons x l ih =>
    have hx := h x (List.mem_cons_self x l)
    have ih2 := ih (fun y hy => h y (List.mem_cons_of_mem x hy))
    rw [List.length_cons, List.sum_cons]
    push_cast
    constructor
    · nlinarith [hx.1, ih2.1]
    · nlinarith [hx.2, ih2.2]

theorem list_mean_bounds (l : List ℚ) (a b : ℚ) (hl : l ≠ []) (h : ∀ x ∈ l, a ≤ x ∧ x ≤ b) :
    a ≤ l.sum / l.length ∧ l.sum / l.length ≤ b := by
  have hpos : (0 : ℚ) < l.length := by
    have : 0 < l.length := List.length_pos.mpr hl
    exact_mod_cast this
  have hs := list_sum_bounds l a b h
  constructor
  · rw [le_div_iff₀ hpos]
    linarith [hs.1]
  · rw [div_le_iff₀ hpos]
    linarith [hs.2]

theorem valid_row_price_counted (r : StockData) (d : Nat) (h : valid_row r = true) :
    price_counted d r = in_bucket d r := by
  unfold valid_row at h
  unfold price_counted in_bucket
  simp only [Bool.and_eq_true, decide_eq_true_eq] at h
  obtain ⟨-, ho1, ho2, -, -, -, -, hc1, hc2⟩ := h
  by_cases hb : bucket_of r = some d
  · rw [decide_eq_true ⟨hb, ho1, ho2, hc1, hc2⟩, decide_eq_true hb]
  · rw [decide_eq_false (fun h => hb h.1), decide_eq_false hb]

theorem valid_row_mid_price (r : StockData) (h : valid_row r = true) :
    1 / 100 ≤ mid_price r ∧ mid_price r ≤ 10000 := by
  unfold valid_row at h
  simp only [Bool.and_eq_true, decide_eq_true_eq] at h
  obtain ⟨-, ho1, ho2, hh1, hh2, hl1, hl2, hc1, hc2⟩ := h
  unfold mid_price
  constructor
  · linarith
  · linarith

/-! ## Rows without a bucket -/

theorem out_of_range_bucket (r : StockData) (h : out_of_range r = true) :
    bucket_of r = none := by
  unfold out_of_range at h
  unfold bucket_of
  cases hy : sscanf_d r.date with
  | none => rfl
  | some year =>
    rw [hy] at h
    simp only [decide_eq_true_eq] at h
    simp only [classify, MIN_YEAR_GLOBAL, MAX_YEAR_GLOBAL]
    rw [if_pos (by omega)]

theorem bucket_of_date (r r' : StockData) (h : r'.date = r.date) :
    bucket_of r' = bucket_of r := by
  unfold bucket_of
  rw [h]

theorem price_step_no_bucket (loc : Accumulator) (r : StockData) (h : bucket_of r = none) :
    price_step loc r = loc := by
  unfold price_step
  rw [h]

theorem return_step_no_bucket (loc : Accumulator) (cur next : StockData)
    (h : bucket_of cur = none) : return_step loc cur next = loc := by
  unfold return_step
  rw [h]

theorem return_step_next_close (loc : Accumulator) (cur next next' : StockData)
    (h : next'.close = next.close) :
    return_step loc cur next' = return_step loc cur next := by
  unfold return_step
  rw [h]

theorem getElem?_middle (pre post : List StockData) (r : StockData) :
    (pre ++ r :: post)[pre.length]? = some r := by
  rw [List.getElem?_append_right (le_refl _), Nat.sub_self, List.getElem?_cons_zero]

theorem getElem?_off_middle (pre post : List StockData) (r r' : StockData) (j : Nat)
    (hj : j ≠ pre.length) : (pre ++ r :: post)[j]? = (pre ++ r' :: post)[j]? := by
  rcases Nat.lt_or_gt_of_ne hj with hlt | hgt
  · rw [List.getElem?_append_left hlt, List.getElem?_append_left hlt]
  · rw [List.getElem?_append_right (le_of_lt hgt), List.getElem?_append_right (le_of_lt hgt)]
    obtain ⟨m, hm⟩ : ∃ m, j - pre.length = m + 1 := ⟨j - pre.length - 1, by omega⟩
    rw [hm, List.getElem?_cons_succ, List.getElem?_cons_succ]

/-- The body of the return loop does not see the replacement of a row
without a bucket by a row of the same date, when the close is kept or the row
before has no bucket either. -/
theorem return_at_replace (pre post : List StockData) (r r' : StockData)
    (hr : bucket_of r = none) (hdate : r'.date = r.date)
    (hclose : r'.close = r.close ∨ ∀ p, pre.getLast? = some p → bucket_of p = none)
    (j : Nat) :
    return_at (pre ++ r' :: post) 0 j = return_at (pre ++ r :: post) 0 j := by
  have hr' : bucket_of r' = none := by rw [bucket_of_date r r' hdate, hr]
  unfold return_at
  by_cases hj : j = pre.length
  · subst hj
    rw [getElem?_middle, getElem?_middle]
    cases (pre ++ r' :: post)[pre.length + 1]? with
    | none =>
      cases (pre ++ r :: post)[pre.length + 1]? with
      | none => rfl
      | some next => exact (return_step_no_bucket 0 r next hr).symm
    | some next' =>
      cases (pre ++ r :: post)[pre.length + 1]? with
      | none => exact return_step_no_bucket 0 r' next' hr'
      | some next =>
        show return_step 0 r' next' = return_step 0 r next
        rw [return_step_no_bucket 0 r' next' hr', return_step_no_bucket 0 r next hr]
  · rw [getElem?_off_middle pre post r' r j hj]
    by_cases hj1 : j + 1 = pre.length
    · rw [hj1, getElem?_middle, getElem?_middle]
      cases hcur : (pre ++ r :: post)[j]? with
      | none => rfl
      | some cur =>
        show return_step 0 cur r' = return_step 0 cur r
        rcases hclose with hc | hlast
        · exact return_step_next_close 0 cur r r' hc
        · have hjlt : j < pre.length := by omega
          rw [List.getElem?_append_left hjlt] at hcur
          have hl : pre.getLast? = some cur := by
            rw [List.getLast?_eq_getElem?]
            have : pre.length - 1 = j := by omega
            rw [this, hcur]
          have hb := hlast cur hl
          rw [return_step_no_bucket 0 cur r' hb, return_step_no_bucket 0 cur r hb]
    · rw [getElem?_off_middle pre post r' r (j + 1) hj1]

theorem accumulate_file_replace (loc : Accumulator) (pre post : List StockData)
    (r r' : StockData) (hr : bucket_of r = none) (hdate : r'.date = r.date)
    (hclose : r'.close = r.close ∨ ∀ p, pre.getLast? = some p → bucket_of p = none) :
    accumulate_file loc ((pre ++ r' :: post).length, some (pre ++ r' :: post))
      = accumulate_file loc ((pre ++ r :: post).length, some (pre ++ r :: post)) := by
  have hr' : bucket_of r' = none := by rw [bucket_of_date r r' hdate, hr]
  have hlen : (pre ++ r' :: post).length = (pre ++ r :: post).length := by simp
  rw [accumulate_file_add loc, accumulate_file_add loc ((pre ++ r :: post).length, _)]
  congr 1
  by_cases h2 : 2 ≤ (pre ++ r :: post).length
  · rw [accumulate_file_two _ _ h2, accumulate_file_two _ _ (hlen ▸ h2), hlen]
    congr 1
    · rw [List.map_append, List.map_append, List.map_cons, List.map_cons,
        price_step_no_bucket 0 r hr, price_step_no_bucket 0 r' hr']
    · congr 1
      apply List.map_congr_left
      intro j _
      exact return_at_replace pre post r r' hr hdate hclose j
  · rw [accumulate_file_skip 0 _ _ (Or.inl (by omega)),
      accumulate_file_skip 0 _ _ (Or.inl (by omega))]


/-! ## `read_csv` on lines -/

theorem split_lines_long (s cur : List Char) (hs : s ≠ []) :
    ∃ l ∈ split_lines s cur, cur.length + 1 ≤ l.length := by
  induction s generalizing cur with
  | nil => exact absurd rfl hs
  | cons c s ih =>
    unfold split_lines
    split_ifs with hc
    · exact ⟨(c :: cur).reverse, List.mem_cons_self _ _, by simp⟩
    · by_cases hs2 : s = []
      · subst hs2
        refine ⟨(c :: cur).reverse, ?_, by simp⟩
        simp [split_lines]
      · obtain ⟨l, hl, hlen⟩ := ih (c :: cur) hs2
        exact ⟨l, hl, by simp only [List.length_cons] at hlen; omega⟩

/-- When every line is shorter than the buffer, `fgets` delivers the lines. -/
theorem fgets_chunks_eq_split_lines (s cur : List Char)
    (h : ∀ l ∈ split_lines s cur, l.length < MAX_LINE_LEN) :
    fgets_chunks s cur = split_lines s cur := by
  induction s generalizing cur with
  | nil => rfl
  | cons c s ih =>
    unfold fgets_chunks
    unfold split_lines at h ⊢
    by_cases hc : c = '\n'
    · rw [if_pos hc] at h ⊢
      rw [if_pos (Or.inl hc)]
      rw [ih [] (fun l hl => h l (List.mem_cons_of_mem _ hl))]
    · rw [if_neg hc] at h ⊢
      by_cases hfull : cur.length + 1 = MAX_LINE_LEN - 1
      · rw [if_pos (Or.inr hfull)]
        by_cases hs : s = []
        · subst hs
          simp [fgets_chunks, split_lines]
        · obtain ⟨l, hl, hlen⟩ := split_lines_long s (c :: cur) hs
          have hlt := h l hl
          simp only [List.length_cons, MAX_LINE_LEN] at hlen hfull hlt
          omega
      · rw [if_neg (fun hor => hor.elim hc hfull)]
        exact ih (c :: cur) h

theorem read_csv_fold_some (scan : List Char → Option StockData) (lines : List (List Char))
    (rows : List StockData) :
    lines.foldl (read_csv_step scan) (some rows) = some (rows ++ lines.filterMap scan) := by
  induction lines generalizing rows with
  | nil => simp
  | cons l lines ih =>
    rw [List.foldl_cons, List.filterMap_cons]
    unfold read_csv_step
    cases scan l with
    | none => simpa using ih rows
    | some r => simpa using ih (rows ++ [r])

theorem read_csv_fold_none (scan : List Char → Option StockData) (lines : List (List Char)) :
    lines.foldl (read_csv_step scan) none
      = if lines.isEmpty then none else some (lines.filterMap scan) := by
  cases lines with
  | nil => rfl
  | cons l lines =>
    rw [List.foldl_cons]
    have hstep : read_csv_step scan none l = some ([] ++ [l].filterMap scan) := by
      unfold read_csv_step
      cases hl : scan l with
      | none => simp [hl]
      | some r => simp [hl]
    rw [hstep, read_csv_fold_some]
    simp [List.filterMap_cons]
    cases scan l <;> simp

theorem read_csv_lines (scan : List Char → Option StockData) (text : List Char)
    (h : ∀ l ∈ split_lines text [], l.length < 256) :
    read_csv scan (some text)
      = ((((split_lines text []).drop 1).filterMap scan).length,
          if ((split_lines text []).drop 1).isEmpty then none
          else some (((split_lines text []).drop 1).filterMap scan)) := by
  unfold read_csv
  simp only []
  rw [fgets_chunks_eq_split_lines text [] h, read_csv_fold_none]
  split_ifs with he
  · rw [List.isEmpty_iff.mp he]
    rfl
  · rfl


theorem length_filterMap_eq_filter {α β : Type} (f : α → Option β) (l : List α) :
    (l.filterMap f).length = (l.filter (fun a => (f a).isSome)).length := by
  induction l with
  | nil => rfl
  | cons a l ih =>
    rw [List.filterMap_cons]
    cases h : f a with
    | none => simp [h, ih]
    | some b => simp [h, ih]


/-! ## Decade spans -/

theorem classify_span (year : Int) (d : Nat) (h : classify year = some d) :
    1900 + 10 * (d : Int) ≤ year ∧ year ≤ 1900 + 10 * (d : Int) + 9 := by
  unfold classify MIN_YEAR_GLOBAL MAX_YEAR_GLOBAL at h
  split_ifs at h with hy
  have hd : ((year - 1900).tdiv 10).toNat = d := by simpa using h
  have hnn : 0 ≤ year - 1900 := by omega
  rw [Int.tdiv_eq_ediv hnn (by norm_num)] at hd
  omega

theorem bucket_of_span (r : StockData) (d : Nat) (h : bucket_of r = some d) :
    ∃ year, sscanf_d r.date = some year ∧
      1900 + 10 * (d : Int) ≤ year ∧ year ≤ 1900 + 10 * (d : Int) + 9 := by
  unfold bucket_of at h
  cases hy : sscanf_d r.date with
  | none => simp [hy] at h
  | some year =>
    rw [hy] at h
    exact ⟨year, rfl, classify_span year d h⟩


/-! ## Return totals over all files -/

theorem process_file_return_totals (scan : List Char → Option StockData)
    (file : Option (List Char)) (d : Nat) :
    (process_file scan 0 file).count_ret d = (file_returns scan d file).length ∧
    (process_file scan 0 file).sum_ret d = (file_returns scan d file).sum ∧
    (process_file scan 0 file).sum_ret_sq d
      = ((file_returns scan d file).map (fun r => r * r)).sum := by
  unfold file_returns
  by_cases h : 2 ≤ (read_csv scan file).1
  · rw [if_pos h]
    have heq := read_csv_eq scan file h
    have hlen : 2 ≤ (parsed_rows scan file).length := by
      rw [heq] at h
      exact h
    have ht := accumulate_file_totals (parsed_rows scan file) hlen d
    unfold process_file
    rw [heq]
    refine ⟨?_, ht.2.2.2.1, ?_⟩
    · rw [ht.2.2.1, List.length_map]
    · rw [ht.2.2.2.2, List.map_map]
      rfl
  · rw [if_neg h]
    have hskip : process_file scan 0 file = 0 := by
      unfold process_file
      exact accumulate_file_skip 0 (read_csv scan file).1 (read_csv scan file).2
        (Or.inl (by omega))
    rw [hskip]
    exact ⟨rfl, rfl, rfl⟩

theorem files_return_totals (scan : List Char → Option StockData)
    (files : List (Option (List Char))) (d : Nat) :
    ((files.map (process_file scan 0)).sum).count_ret d
      = ((files.map (file_returns scan d)).flatten).length ∧
    ((files.map (process_file scan 0)).sum).sum_ret d
      = ((files.map (file_returns scan d)).flatten).sum ∧
    ((files.map (process_file scan 0)).sum).sum_ret_sq d
      = (((files.map (file_returns scan d)).flatten).map (fun r => r * r)).sum := by
  induction files with
  | nil => exact ⟨rfl, rfl, rfl⟩
  | cons f files ih =>
    have hf := process_file_return_totals scan f d
    refine ⟨?_, ?_, ?_⟩
    · rw [List.map_cons, List.sum_cons, add_count_ret, hf.1, ih.1, List.map_cons,
        List.flatten_cons, List.length_append]
    · rw [List.map_cons, List.sum_cons, add_sum_ret, hf.2.1, ih.2.1, List.map_cons,
        List.flatten_cons, List.sum_append]
    · rw [List.map_cons, List.sum_cons, add_sum_ret_sq, hf.2.2, ih.2.2, List.map_cons,
        List.flatten_cons, List.map_append, List.sum_append]

/-- The three global return arrays at `d` are the number, the sum and the sum
of the squares of the returns of bucket `d`. -/
theorem parallel_region_return_totals (scan : List Char → Option StockData)
    (sched : List (List (Option (List Char)))) (d : Nat) :
    (parallel_region scan sched).count_ret d = (all_returns scan sched d).length ∧
    (parallel_region scan sched).sum_ret d = (all_returns scan sched d).sum ∧
    (parallel_region scan sched).sum_ret_sq d
      = ((all_returns scan sched d).map (fun r => r * r)).sum := by
  rw [parallel_region_eq_sum]
  exact files_return_totals scan sched.flatten d

theorem return_counted_bounds (d : Nat) (cur next : StockData)
    (h : return_counted d cur next = true) :
    -1 < simple_return cur next ∧ simple_return cur next ≤ 1 := by
  unfold return_counted at h
  simp only [decide_eq_true_eq] at h
  obtain ⟨-, hp, hq, habs⟩ := h
  refine ⟨?_, (abs_le.mp habs).2⟩
  unfold simple_return
  have hp0 : (0 : ℚ) < cur.close := lt_of_lt_of_le (by norm_num) hp
  have hq0 : (0 : ℚ) < next.close := lt_of_lt_of_le (by norm_num) hq
  rw [lt_div_iff₀ hp0]
  linarith

theorem pair_counted_bounds (data : List StockData) (d j : Nat)
    (h : pair_counted data d j = true) :
    -1 < pair_return data j ∧ pair_return data j ≤ 1 := by
  unfold pair_counted at h
  unfold pair_return
  cases hc : data[j]? with
  | none => simp [hc] at h
  | some cur =>
    cases hn : data[j + 1]? with
    | none => simp [hc, hn] at h
    | some next =>
      rw [hc, hn] at h
      exact return_counted_bounds d cur next h

theorem all_returns_bounds (scan : List Char → Option StockData)
    (sched : List (List (Option (List Char)))) (d : Nat) :
    ∀ r ∈ all_returns scan sched d, -1 < r ∧ r ≤ 1 := by
  intro r hr
  unfold all_returns at hr
  rw [List.mem_flatten] at hr
  obtain ⟨l, hl, hrl⟩ := hr
  rw [List.mem_map] at hl
  obtain ⟨f, -, hf⟩ := hl
  subst hf
  unfold file_returns at hrl
  split_ifs at hrl with h2
  · rw [List.mem_map] at hrl
    obtain ⟨j, hj, rfl⟩ := hrl
    rw [List.mem_filter] at hj
    exact pair_counted_bounds _ d j hj.2
  · simp at hrl

/-! ## Sums of squares -/

theorem sum_sq_deviation (l : List ℚ) (m : ℚ) :
    (l.map (fun x => (x - m) * (x - m))).sum
      = (l.map (fun x => x * x)).sum - 2 * m * l.sum + l.length * (m * m) := by
  induction l with
  | nil => simp
  | cons x l ih =>
    simp only [List.map_cons, List.sum_cons, List.length_cons, ih]
    push_cast
    ring

/-- The variance of a list of numbers is not negative. -/
theorem raw_var_nonneg (l : List ℚ) (hl : 0 < l.length) :
    0 ≤ raw_var l.sum (l.map (fun x => x * x)).sum l.length := by
  have hn : (0 : ℚ) < l.length := by exact_mod_cast hl
  have hdev : 0 ≤ (l.map (fun x => (x - l.sum / l.length) * (x - l.sum / l.length))).sum := by
    apply List.sum_nonneg
    intro y hy
    rw [List.mem_map] at hy
    obtain ⟨x, -, rfl⟩ := hy
    exact mul_self_nonneg _
  rw [sum_sq_deviation] at hdev
  unfold raw_var
  simp only []
  have hrew : (l.map (fun x => x * x)).sum / l.length - l.sum / l.length * (l.sum / l.length)
      = ((l.map (fun x => x * x)).sum - 2 * (l.sum / l.length) * l.sum
          + l.length * (l.sum / l.length * (l.sum / l.length))) / l.length := by
    field_simp
    ring
  rw [hrew]
  exact div_nonneg hdev (le_of_lt hn)

theorem list_sum_gt_neg_length (l : List ℚ) (h : ∀ x ∈ l, -1 < x) :
    -(l.length : ℚ) ≤ l.sum ∧ (l ≠ [] → -(l.length : ℚ) < l.sum) := by
  induction l with
  | nil => simp
  | cons x l ih =>
    have hx := h x (List.mem_cons_self x l)
    have ih2 := (ih (fun y hy => h y (List.mem_cons_of_mem x hy))).1
    rw [List.length_cons, List.sum_cons]
    push_cast
    constructor
    · linarith
    · intro _
      linarith


theorem sqrt_floor_le_one (x : ℚ) (h0 : 0 ≤ x) (h1 : x ≤ 1) : sqrt_floor x ≤ 1 := by
  unfold sqrt_floor
  have hden : (0 : ℚ) < x.den := by exact_mod_cast x.den_pos
  have hnum0 : 0 ≤ x.num := Rat.num_nonneg.mpr h0
  have hq : (x.num : ℚ) ≤ x.den := by
    have hx : (x.num : ℚ) / x.den ≤ 1 := by rw [Rat.num_div_den]; exact h1
    rwa [div_le_one hden] at hx
  have hz : x.num ≤ (x.den : Int) := by exact_mod_cast hq
  have hn : x.num.toNat ≤ x.den := by omega
  have hs : Nat.sqrt (x.num.toNat * x.den) ≤ x.den := by
    calc Nat.sqrt (x.num.toNat * x.den) ≤ Nat.sqrt (x.den * x.den) :=
          Nat.sqrt_le_sqrt (Nat.mul_le_mul_right _ hn)
      _ = x.den := Nat.sqrt_eq x.den
  rw [div_le_one hden]
  exact_mod_cast hs


/-! ## A single printed block -/

theorem dbl_of_nonneg (x : ℚ) (h0 : 0 ≤ x) (h1 : x < DBL_OVERFLOW) : dbl_of x = some x := by
  unfold dbl_of
  rw [abs_of_nonneg h0, if_pos h1]

/-- With non-negative prices and a total below the overflow bound, line 114
delivers the mid price. -/
theorem mid_price_double_eq (r : StockData) (ho : 0 ≤ r.open_) (hh : 0 ≤ r.high)
    (hl : 0 ≤ r.low) (hc : 0 ≤ r.close) (ht : price_total r < DBL_OVERFLOW) :
    mid_price_double r = some (mid_price r) := by
  unfold price_total at ht
  unfold mid_price_double mid_price
  have h1 : dbl_add (some r.open_) (some r.high) = some (r.open_ + r.high) :=
    dbl_of_nonneg _ (by linarith) (by linarith)
  have h2 : dbl_add (some (r.open_ + r.high)) (some r.low) = some (r.open_ + r.high + r.low) :=
    dbl_of_nonneg _ (by linarith) (by linarith)
  have h3 : dbl_add (some (r.open_ + r.high + r.low)) (some r.close)
      = some (r.open_ + r.high + r.low + r.close) :=
    dbl_of_nonneg _ (by linarith) (by linarith)
  rw [h1, h2, h3]
  rfl

theorem price_step_double_apply (sum_avg : Nat → Option ℚ) (r : StockData) (d : Nat) :
    price_step_double sum_avg r d
      = if price_counted d r then dbl_add (sum_avg d) (mid_price_double r) else sum_avg d := by
  unfold price_step_double price_counted
  cases hb : bucket_of r with
  | none => simp
  | some k =>
    simp only [MIN_PRICE, MAX_PRICE, ge_iff_le, decide_eq_true_eq, Option.some.injEq]
    by_cases hp : (1 : ℚ) / 100 ≤ r.open_ ∧ r.open_ ≤ 10000 ∧ 1 / 100 ≤ r.close ∧ r.close ≤ 10000
    · rw [if_pos hp]
      by_cases hk : k = d
      · have hkp : k = d ∧ (1 : ℚ) / 100 ≤ r.open_ ∧ r.open_ ≤ 10000 ∧ 1 / 100 ≤ r.close ∧
            r.close ≤ 10000 := ⟨hk, hp⟩
        simp only [if_pos hkp, if_pos hk.symm]
      · have hkp : ¬ (k = d ∧ (1 : ℚ) / 100 ≤ r.open_ ∧ r.open_ ≤ 10000 ∧
            1 / 100 ≤ r.close ∧ r.close ≤ 10000) := fun h => hk h.1
        simp only [if_neg hkp, if_neg (Ne.symm hk)]
    · have hkp : ¬ (k = d ∧ (1 : ℚ) / 100 ≤ r.open_ ∧ r.open_ ≤ 10000 ∧
          1 / 100 ≤ r.close ∧ r.close ≤ 10000) := fun h => hp h.2
      rw [if_neg hp, if_neg hkp]

theorem price_counted_bounds (d : Nat) (r : StockData) (h : price_counted d r = true) :
    1 / 100 ≤ r.open_ ∧ r.open_ ≤ 10000 ∧ 1 / 100 ≤ r.close ∧ r.close ≤ 10000 := by
  unfold price_counted at h
  simp only [decide_eq_true_eq] at h
  exact h.2

theorem price_totals_nonneg (d : Nat) (data : List StockData)
    (hhl : ∀ r ∈ data, price_counted d r = true → 0 ≤ r.high ∧ 0 ≤ r.low) :
    0 ≤ ((data.filter (price_counted d)).map price_total).sum := by
  apply List.sum_nonneg
  intro x hx
  rw [List.mem_map] at hx
  obtain ⟨r, hr, rfl⟩ := hx
  rw [List.mem_filter] at hr
  have hb := price_counted_bounds d r hr.2
  have hq := hhl r hr.1 hr.2
  unfold price_total
  linarith [hb.1, hb.2.2.1, hq.1, hq.2]

/-- The price pass in doubles: with non-negative highs and lows and a total
below the overflow bound no addition overflows, and the cell holds the sum
of the mid prices. -/
theorem price_pass_double_sum (d : Nat) (data : List StockData) (sum_avg : Nat → Option ℚ)
    (a : ℚ) (ha : sum_avg d = some a) (ha0 : 0 ≤ a)
    (hhl : ∀ r ∈ data, price_counted d r = true → 0 ≤ r.high ∧ 0 ≤ r.low)
    (ht : 4 * a + ((data.filter (price_counted d)).map price_total).sum < DBL_OVERFLOW) :
    price_pass_double sum_avg data d
      = some (a + ((data.filter (price_counted d)).map mid_price).sum) := by
  induction data generalizing sum_avg a with
  | nil =>
    unfold price_pass_double
    simpa using ha
  | cons r data ih =>
    have hrest := price_totals_nonneg d data
      (fun x hx hc => hhl x (List.mem_cons_of_mem r hx) hc)
    unfold price_pass_double
    rw [List.foldl_cons]
    by_cases hc : price_counted d r = true
    · have hb := price_counted_bounds d r hc
      have hq := hhl r (List.mem_cons_self r data) hc
      rw [List.filter_cons_of_pos hc, List.map_cons, List.sum_cons] at ht
      have hmid : mid_price_double r = some (mid_price r) :=
        mid_price_double_eq r (by linarith [hb.1]) hq.1 hq.2 (by linarith [hb.2.2.1])
          (by linarith)
      have h4 : 4 * mid_price r = price_total r := by
        unfold mid_price price_total
        ring
      have hm0 : 0 ≤ mid_price r := by
        unfold mid_price
        linarith [hb.1, hb.2.2.1, hq.1, hq.2]
      have hstep : price_step_double sum_avg r d = some (a + mid_price r) := by
        rw [price_step_double_apply, if_pos hc, ha, hmid]
        exact dbl_of_nonneg _ (by linarith) (by linarith)
      have := ih (price_step_double sum_avg r) (a + mid_price r) hstep (by linarith)
        (fun x hx hcx => hhl x (List.mem_cons_of_mem r hx) hcx) (by linarith)
      unfold price_pass_double at this
      rw [this, List.filter_cons_of_pos hc, List.map_cons, List.sum_cons, add_assoc]
    · have hc2 : price_counted d r = false := by simpa using hc
      rw [List.filter_cons_of_neg hc] at ht
      have hstep : price_step_double sum_avg r d = some a := by
        rw [price_step_double_apply, hc2]
        simpa using ha
      have := ih (price_step_double sum_avg r) a hstep ha0
        (fun x hx hcx => hhl x (List.mem_cons_of_mem r hx) hcx) ht
      unfold price_pass_double at this
      rw [this, List.filter_cons_of_neg hc]

/-- C1: a year has a bucket exactly when it lies in 1900..2100; the bucket is
then `(year - 1900) / 10` and is below `MAX_DECADES = 21`; 1900 goes to
bucket 0, 2100 to bucket 20, and 1899 and 2101 to none. -/
theorem classify_spec (year : Int) :
    ((classify year).isSome ↔ 1900 ≤ year ∧ year ≤ 2100) ∧
    (∀ d : Nat, classify year = some d → (d : Int) = (year - 1900) / 10 ∧ d < MAX_DECADES) ∧
    MAX_DECADES = 21 ∧
    classify 1900 = some 0 ∧ classify 2100 = some 20 ∧
    classify 1899 = none ∧ classify 2101 = none := by
  refine ⟨?_, ?_, by decide, by decide, by decide, by decide, by decide⟩
  · unfold classify MIN_YEAR_GLOBAL MAX_YEAR_GLOBAL
    split_ifs with h
    · simp only [Option.isSome_none, Bool.false_eq_true, false_iff]
      omega
    · simp only [Option.isSome_some, true_iff]
      omega
  · intro d hd
    have h21 : MAX_DECADES = 21 := by decide
    unfold classify MIN_YEAR_GLOBAL MAX_YEAR_GLOBAL at hd
    split_ifs at hd with h
    have hd2 : ((year - 1900).tdiv 10).toNat = d := by simpa using hd
    have hnn : 0 ≤ year - 1900 := by omega
    rw [Int.tdiv_eq_ediv hnn (by norm_num)] at hd2
    rw [h21]
    omega

/-- C1, at the year 1995. -/
theorem classify_spec_witness :
    classify 1995 = some 9 ∧ ((9 : Nat) : Int) = (1995 - 1900) / 10 ∧ 9 < MAX_DECADES :=
  ⟨by decide, (classify_spec 1995).2.1 9 (by decide)⟩

/-! ## The two passes over one file -/

/-- C2, as stated, fails on the sum: both rows are counted in bucket 9, the
high and the low of the first are `1e308`, and on line 114 the sum
`open + high + low` passes the largest double, so `loc_sum_avg[9]` is not a
finite number, whereas the sum of the two mid prices is one. -/
theorem price_pass_counterexample :
    2 ≤ rows_high_1e308.length ∧
    (rows_high_1e308.filter (price_counted 9)).length = 2 ∧
    rows_high_1e308.map mid_price_double = [none, some (205 / 2)] ∧
    accumulate_file_double (fun _ => some 0) (rows_high_1e308.length, some rows_high_1e308) 9
      = none ∧
    accumulate_file_double (fun _ => some 0) (rows_high_1e308.length, some rows_high_1e308) 9
      ≠ some (((rows_high_1e308.filter (price_counted 9)).map
          (fun r => (r.open_ + r.high + r.low + r.close) / 4)).sum) := by
  refine ⟨by decide, by decide!, by decide!, by decide!, by decide!⟩

/-- C2, amended: for a file of at least two parsed rows processed from an
empty accumulator, `count_rows d` is the number of rows whose year classifies
to `d` and whose open and close lie in `[0.01, 10000.0]`; when the highs and
lows of those rows are not negative and their `open + high + low + close`
sum up to less than the overflow bound of doubles, no addition overflows and
`sum_avg d` is the sum of the mid prices of exactly those rows; a row whose
open or close is outside the bounds leaves the arrays as they were. -/
theorem price_pass_amended (data : List StockData) (h : 2 ≤ data.length) (d : Nat) :
    (accumulate_file Accumulator.empty (data.length, some data)).count_rows d
      = (data.filter (price_counted d)).length ∧
    ((∀ r ∈ data, price_counted d r = true → 0 ≤ r.high ∧ 0 ≤ r.low) →
      ((data.filter (price_counted d)).map
          (fun r => r.open_ + r.high + r.low + r.close)).sum < DBL_OVERFLOW →
      accumulate_file_double (fun _ => some 0) (data.length, some data) d
        = some (((data.filter (price_counted d)).map
            (fun r => (r.open_ + r.high + r.low + r.close) / 4)).sum) ∧
      (accumulate_file Accumulator.empty (data.length, some data)).sum_avg d
        = ((data.filter (price_counted d)).map
            (fun r => (r.open_ + r.high + r.low + r.close) / 4)).sum) ∧
    (∀ (loc : Accumulator) (r : StockData),
      (r.open_ < 1 / 100 ∨ 10000 < r.open_ ∨ r.close < 1 / 100 ∨ 10000 < r.close) →
      price_step loc r = loc) ∧
    (∀ (sum_avg : Nat → Option ℚ) (r : StockData),
      (r.open_ < 1 / 100 ∨ 10000 < r.open_ ∨ r.close < 1 / 100 ∨ 10000 < r.close) →
      price_step_double sum_avg r = sum_avg) := by
  have ht := accumulate_file_totals data h d
  have hout : ∀ r : StockData,
      (r.open_ < 1 / 100 ∨ 10000 < r.open_ ∨ r.close < 1 / 100 ∨ 10000 < r.close) →
      ¬ (r.open_ ≥ MIN_PRICE ∧ r.open_ ≤ MAX_PRICE ∧ r.close ≥ MIN_PRICE ∧
        r.close ≤ MAX_PRICE) := by
    intro r hr
    simp only [MIN_PRICE, MAX_PRICE, ge_iff_le]
    rintro ⟨h1, h2, h3, h4⟩
    rcases hr with hr | hr | hr | hr
    · exact absurd h1 (not_le.mpr hr)
    · exact absurd h2 (not_le.mpr hr)
    · exact absurd h3 (not_le.mpr hr)
    · exact absurd h4 (not_le.mpr hr)
  refine ⟨ht.1, ?_, ?_, ?_⟩
  · intro hhl hsum
    refine ⟨?_, ht.2.1⟩
    have hpass := price_pass_double_sum d data (fun _ => some 0) 0 rfl (le_refl 0) hhl
      (by rw [mul_zero, zero_add]; exact hsum)
    rw [zero_add] at hpass
    unfold accumulate_file_double
    simp only []
    rw [if_neg (by omega)]
    exact hpass
  · intro loc r hr
    unfold price_step
    cases bucket_of r with
    | none => rfl
    | some k =>
      simp only []
      rw [if_neg (hout r hr)]
  · intro sum_avg r hr
    unfold price_step_double
    cases bucket_of r with
    | none => rfl
    | some k =>
      simp only []
      rw [if_neg (hout r hr)]

/-- C2 amended, on the sample rows: of the five rows, the three of the 1990s
with prices inside the bounds are counted in bucket 9. -/
theorem price_pass_amended_witness :
    2 ≤ sample_rows.length ∧
    (sample_rows.filter (price_counted 9)).length = 3 ∧
    (∀ r ∈ sample_rows, price_counted 9 r = true → 0 ≤ r.high ∧ 0 ≤ r.low) ∧
    ((sample_rows.filter (price_counted 9)).map
        (fun r => r.open_ + r.high + r.low + r.close)).sum < DBL_OVERFLOW ∧
    (accumulate_file Accumulator.empty (sample_rows.length, some sample_rows)).count_rows 9
      = (sample_rows.filter (price_counted 9)).length ∧
    accumulate_file_double (fun _ => some 0) (sample_rows.length, some sample_rows) 9
      = some (((sample_rows.filter (price_counted 9)).map
          (fun r => (r.open_ + r.high + r.low + r.close) / 4)).sum) :=
  ⟨by decide, by decide!, by decide!, by decide!,
    (price_pass_amended sample_rows (by decide) 9).1,
    ((price_pass_amended sample_rows (by decide) 9).2.1 (by decide!) (by decide!)).1⟩

/-- C3: the body of the return loop adds `r`, `r * r` and 1 to the bucket of
the first row of a pair exactly when that row has a bucket, both closes are
at least `0.01` and `|r| ≤ 1`, and changes nothing otherwise; so for a file
of at least two parsed rows processed from an empty accumulator the three
return arrays at `d` are the count, the sum and the sum of squares of the
returns of the pairs `j < n - 1` that count for `d`.  The closes 100, 110, 90
give the returns 1/10 and -2/11, each in the bucket of the first row of its
pair. -/
theorem return_pass_spec (data : List StockData) (h : 2 ≤ data.length) (d : Nat) :
    (∀ (loc : Accumulator) (cur next : StockData),
      (return_step loc cur next).count_ret d
        = loc.count_ret d + (if return_counted d cur next then 1 else 0) ∧
      (return_step loc cur next).sum_ret d
        = loc.sum_ret d + (if return_counted d cur next then simple_return cur next else 0) ∧
      (return_step loc cur next).sum_ret_sq d
        = loc.sum_ret_sq d
          + (if return_counted d cur next then simple_return cur next * simple_return cur next
             else 0)) ∧
    (accumulate_file Accumulator.empty (data.length, some data)).count_ret d
      = ((List.range (data.length - 1)).filter (pair_counted data d)).length ∧
    (accumulate_file Accumulator.empty (data.length, some data)).sum_ret d
      = (((List.range (data.length - 1)).filter (pair_counted data d)).map
          (pair_return data)).sum ∧
    (accumulate_file Accumulator.empty (data.length, some data)).sum_ret_sq d
      = (((List.range (data.length - 1)).filter (pair_counted data d)).map
          (fun j => pair_return data j * pair_return data j)).sum ∧
    (List.range 2).map (pair_return closes_100_110_90) = [1 / 10, -2 / 11] ∧
    (accumulate_file Accumulator.empty (3, some closes_100_110_90)).count_ret 9 = 1 ∧
    (accumulate_file Accumulator.empty (3, some closes_100_110_90)).sum_ret 9 = 1 / 10 ∧
    (accumulate_file Accumulator.empty (3, some closes_100_110_90)).count_ret 10 = 1 ∧
    (accumulate_file Accumulator.empty (3, some closes_100_110_90)).sum_ret 10 = -2 / 11 ∧
    (accumulate_file Accumulator.empty (3, some closes_100_110_90)).count_ret 11 = 0 := by
  have ht := accumulate_file_totals data h d
  refine ⟨?_, ht.2.2.1, ht.2.2.2.1, ht.2.2.2.2, by decide!, by decide!, by decide!,
    by decide!, by decide!, by decide!⟩
  intro loc cur next
  have hs := return_step_fields loc cur next d
  exact ⟨hs.1, hs.2.1, hs.2.2.1⟩

/-- C3, on the sample rows and bucket 9. -/
theorem return_pass_spec_witness :
    2 ≤ sample_rows.length ∧
    (accumulate_file Accumulator.empty (sample_rows.length, some sample_rows)).count_ret 9
      = ((List.range (sample_rows.length - 1)).filter (pair_counted sample_rows 9)).length ∧
    ((List.range (sample_rows.length - 1)).filter (pair_counted sample_rows 9)) = [0, 1, 3] :=
  ⟨by decide, (return_pass_spec sample_rows (by decide) 9).2.1, by decide!⟩

/-! ## Independence of the schedule -/

/-- C4: whatever the schedule (which thread takes which files, in which
order, and in which order the threads merge), the global accumulator is the
one of a single thread that processes all the files, so the counts are equal
and, in exact arithmetic, the sums and the printed statistics too. -/
theorem merge_independence (scan : List Char → Option StockData) (csqrt : ℚ → ℚ)
    (files : List (Option (List Char))) (sched : List (List (Option (List Char))))
    (h : sched.flatten.Perm files) :
    parallel_region scan sched = parallel_region scan [files] ∧
    parallel_region scan [files] = worker scan files ∧
    finalize csqrt (parallel_region scan sched) = finalize csqrt (parallel_region scan [files]) := by
  have h1 : parallel_region scan sched = parallel_region scan [files] := by
    rw [parallel_region_eq_sum, parallel_region_eq_sum]
    apply List.Perm.sum_eq
    apply List.Perm.map
    simpa using h
  refine ⟨h1, ?_, by rw [h1]⟩
  rw [parallel_region_eq_sum, worker_eq_sum]
  simp

/-- C4, for three files shared between two threads, against one thread that
takes them in another order. -/
theorem merge_independence_witness :
    [[file_2000], [file_one_row, file_1990s]].flatten.Perm [file_1990s, file_2000, file_one_row] ∧
    parallel_region scan_plain [[file_2000], [file_one_row, file_1990s]]
      = parallel_region scan_plain [[file_1990s, file_2000, file_one_row]] ∧
    (parallel_region scan_plain [[file_2000], [file_one_row, file_1990s]]).count_rows 9 = 4 :=
  ⟨by decide,
    (merge_independence scan_plain sqrt_floor [file_1990s, file_2000, file_one_row]
      [[file_2000], [file_one_row, file_1990s]] (by decide)).1,
    by decide!⟩

/-! ## The printed statistics -/

/-- C5, as stated, fails: for the file of one row of 1999 and one of 2000,
the decade 2000-2009 is printed with one row and no return, and its
volatility is printed as the number 0. -/
theorem absent_statistics_counterexample :
    (parallel_region scan_plain [[file_2000]]).count_rows 10 = 1 ∧
    (parallel_region scan_plain [[file_2000]]).count_ret 10 = 0 ∧
    (report_decade sqrt_floor (parallel_region scan_plain [[file_2000]]) 10).map
        (fun e => (e.start_year, e.rows, e.vol, e.mean_r, e.annual_r))
      = some (2000, 1, 0, none, none) := by
  refine ⟨by decide!, by decide!, by decide!⟩

/-- C5, amended: for a printed bucket without returns, mean daily return and
annual return are absent (`N/A`), and the volatility is printed as 0. -/
theorem absent_statistics_amended (csqrt : ℚ → ℚ) (g : Accumulator) (d : Nat)
    (hd : d < MAX_DECADES) (hrows : 0 < g.count_rows d) (hret : g.count_ret d = 0) :
    ∃ e, report_decade csqrt g d = some e ∧ e ∈ finalize csqrt g ∧
      e.mean_r = none ∧ e.annual_r = none ∧ e.vol = 0 := by
  obtain ⟨e, he, -, -, -, -, hv, hm, ha⟩ :=
    report_decade_of_rows csqrt g d (Nat.pos_iff_ne_zero.mp hrows)
  refine ⟨e, he, mem_finalize csqrt g d hd e he, ?_, ?_, ?_⟩
  · rw [hm, hret]
    rfl
  · rw [ha, hret]
    rfl
  · rw [hv, hret]
    rfl

/-- C5 amended, at the decade 2000-2009 of the file of 1999 and 2000. -/
theorem absent_statistics_amended_witness :
    10 < MAX_DECADES ∧ 0 < (parallel_region scan_plain [[file_2000]]).count_rows 10 ∧
    (parallel_region scan_plain [[file_2000]]).count_ret 10 = 0 ∧
    ∃ e, report_decade sqrt_floor (parallel_region scan_plain [[file_2000]]) 10 = some e ∧
      e ∈ finalize sqrt_floor (parallel_region scan_plain [[file_2000]]) ∧
      e.mean_r = none ∧ e.annual_r = none ∧ e.vol = 0 :=
  ⟨by decide, by decide!, by decide!,
    absent_statistics_amended sqrt_floor (parallel_region scan_plain [[file_2000]]) 10
      (by decide) (by decide!) (by decide!)⟩

/-- C7: for a printed bucket with returns, whatever the sums, the argument
of `sqrt` is `max 0 (sum_ret_sq / n - (sum_ret / n) ^ 2)`, hence never
negative; with a square root that is 0 at 0 and non-negative on non-negative
arguments, the printed volatility is non-negative, and it is 0 when the
unclamped expression is negative. -/
theorem variance_clamp (csqrt : ℚ → ℚ) (hs0 : csqrt 0 = 0)
    (hsn : ∀ x : ℚ, 0 ≤ x → 0 ≤ csqrt x) (g : Accumulator) (d : Nat)
    (hrows : 0 < g.count_rows d) (hret : 0 < g.count_ret d) :
    clamped_var (g.sum_ret d) (g.sum_ret_sq d) (g.count_ret d)
      = max 0 (g.sum_ret_sq d / g.count_ret d - (g.sum_ret d / g.count_ret d) ^ 2) ∧
    0 ≤ clamped_var (g.sum_ret d) (g.sum_ret_sq d) (g.count_ret d) ∧
    ∃ e, report_decade csqrt g d = some e ∧
      e.vol = csqrt (clamped_var (g.sum_ret d) (g.sum_ret_sq d) (g.count_ret d)) ∧
      0 ≤ e.vol ∧
      (g.sum_ret_sq d / g.count_ret d - (g.sum_ret d / g.count_ret d) ^ 2 < 0 → e.vol = 0) := by
  have hmax : clamped_var (g.sum_ret d) (g.sum_ret_sq d) (g.count_ret d)
      = max 0 (g.sum_ret_sq d / g.count_ret d - (g.sum_ret d / g.count_ret d) ^ 2) := by
    unfold clamped_var raw_var
    simp only [pow_two]
    split_ifs with hneg
    · exact (max_eq_left (le_of_lt hneg)).symm
    · exact (max_eq_right (not_lt.mp hneg)).symm
  have hnn : 0 ≤ clamped_var (g.sum_ret d) (g.sum_ret_sq d) (g.count_ret d) := by
    rw [hmax]
    exact le_max_left _ _
  obtain ⟨e, he, -, -, -, -, hv, -, -⟩ :=
    report_decade_of_rows csqrt g d (Nat.pos_iff_ne_zero.mp hrows)
  rw [if_pos hret] at hv
  refine ⟨hmax, hnn, e, he, hv, ?_, ?_⟩
  · rw [hv]
    exact hsn _ hnn
  · intro hneg
    rw [hv, hmax, max_eq_left (le_of_lt hneg), hs0]

/-- C7, at a bucket whose unclamped variance is -1. -/
theorem variance_clamp_witness :
    sqrt_floor 0 = 0 ∧ (∀ x : ℚ, 0 ≤ x → 0 ≤ sqrt_floor x) ∧
    0 < negative_var_acc.count_rows 0 ∧ 0 < negative_var_acc.count_ret 0 ∧
    negative_var_acc.sum_ret_sq 0 / negative_var_acc.count_ret 0
      - (negative_var_acc.sum_ret 0 / negative_var_acc.count_ret 0) ^ 2 = -1 ∧
    ∃ e, report_decade sqrt_floor negative_var_acc 0 = some e ∧ e.vol = 0 := by
  have h0 : sqrt_floor 0 = 0 := by decide!
  have hn : ∀ x : ℚ, 0 ≤ x → 0 ≤ sqrt_floor x := by
    intro x _
    unfold sqrt_floor
    positivity
  have hneg : negative_var_acc.sum_ret_sq 0 / negative_var_acc.count_ret 0
      - (negative_var_acc.sum_ret 0 / negative_var_acc.count_ret 0) ^ 2 = -1 := by decide!
  obtain ⟨-, -, e, he, -, -, hz⟩ :=
    variance_clamp sqrt_floor h0 hn negative_var_acc 0 (by decide) (by decide)
  exact ⟨h0, hn, by decide, by decide, hneg, e, he, hz (by rw [hneg]; norm_num)⟩

/-- C8: for a printed bucket with returns, the mean daily return is
`sum_ret / count_ret` and the annual return is `(1 + mean) ^ 252 - 1`. -/
theorem return_statistics (csqrt : ℚ → ℚ) (g : Accumulator) (d : Nat)
    (hrows : 0 < g.count_rows d) (hret : 0 < g.count_ret d) :
    ∃ e m, report_decade csqrt g d = some e ∧
      e.mean_r = some m ∧ m = g.sum_ret d / g.count_ret d ∧
      e.annual_r = some ((1 + m) ^ 252 - 1) := by
  obtain ⟨e, he, -, -, -, -, -, hm, ha⟩ :=
    report_decade_of_rows csqrt g d (Nat.pos_iff_ne_zero.mp hrows)
  rw [if_pos hret] at hm ha
  exact ⟨e, _, he, hm, rfl, ha⟩

/-- C8, at the decade 1990-1999 of the file of three rows: the returns of the
closes 100, 105, 110 are 1/20 and 1/21, and their mean is 41/840. -/
theorem return_statistics_witness :
    0 < (parallel_region scan_plain [[file_1990s]]).count_rows 9 ∧
    0 < (parallel_region scan_plain [[file_1990s]]).count_ret 9 ∧
    (parallel_region scan_plain [[file_1990s]]).sum_ret 9
      / (parallel_region scan_plain [[file_1990s]]).count_ret 9 = 41 / 840 ∧
    ∃ e m, report_decade sqrt_floor (parallel_region scan_plain [[file_1990s]]) 9 = some e ∧
      e.mean_r = some m ∧
      m = (parallel_region scan_plain [[file_1990s]]).sum_ret 9
        / (parallel_region scan_plain [[file_1990s]]).count_ret 9 ∧
      e.annual_r = some ((1 + m) ^ 252 - 1) :=
  ⟨by decide!, by decide!, by decide!,
    return_statistics sqrt_floor (parallel_region scan_plain [[file_1990s]]) 9
      (by decide!) (by decide!)⟩

/-- C9: the printed blocks are those of the buckets `d < 21` with
`count_rows d > 0`, each once, in increasing order of `d` and so of
`start_year`; a bucket without rows has no block. -/
theorem finalize_shape (csqrt : ℚ → ℚ) (g : Accumulator) :
    (finalize csqrt g).map (fun e => e.start_year)
      = ((List.range 21).filter (fun d => decide (0 < g.count_rows d))).map
          (fun d : Nat => 1900 + 10 * (d : Int)) ∧
    (finalize csqrt g).Pairwise (fun a b => a.start_year < b.start_year) ∧
    (∀ d : Nat, d < 21 →
      ((finalize csqrt g).map (fun e => e.start_year)).count (1900 + 10 * (d : Int))
        = if 0 < g.count_rows d then 1 else 0) := by
  have h21 : MAX_DECADES = 21 := by decide
  have hmap := start_years_of_filterMap csqrt g (List.range 21)
  have hinj : Function.Injective (fun d : Nat => 1900 + 10 * (d : Int)) := by
    intro a b hab
    simp only at hab
    omega
  have hnodup : (((List.range 21).filter (fun d => decide (0 < g.count_rows d))).map
      (fun d : Nat => 1900 + 10 * (d : Int))).Nodup :=
    ((List.nodup_range 21).filter _).map hinj
  unfold finalize
  rw [h21]
  refine ⟨hmap, ?_, ?_⟩
  · have hp : ((List.range 21).filterMap (report_decade csqrt g)).Pairwise
        (fun a b => (fun e : DecadeStatistics => e.start_year) a
          < (fun e : DecadeStatistics => e.start_year) b) := by
      rw [← List.pairwise_map, hmap]
      apply List.Pairwise.map _ _ (List.Pairwise.filter _ (List.pairwise_lt_range 21))
      intro a b hab
      show 1900 + 10 * (a : Int) < 1900 + 10 * (b : Int)
      omega
    exact hp
  · intro d hd
    rw [hmap]
    split_ifs with hpos
    · apply List.count_eq_one_of_mem hnodup
      rw [List.mem_map]
      refine ⟨d, ?_, rfl⟩
      rw [List.mem_filter]
      exact ⟨List.mem_range.mpr hd, by simpa using hpos⟩
    · apply List.count_eq_zero_of_not_mem
      rw [List.mem_map]
      rintro ⟨k, hk, hkd⟩
      rw [List.mem_filter] at hk
      have hkd2 : k = d := hinj hkd
      subst hkd2
      exact hpos (by simpa using hk.2)

/-- C9, on the accumulator of two files: the decades 1990 and 2000 are
printed, in this order, and the decade 1990 once. -/
theorem finalize_shape_witness :
    (finalize sqrt_floor (parallel_region scan_plain [[file_2000], [file_1990s]])).map
        (fun e => e.start_year)
      = ((List.range 21).filter (fun d =>
          decide (0 < (parallel_region scan_plain [[file_2000], [file_1990s]]).count_rows d))).map
          (fun d : Nat => 1900 + 10 * (d : Int)) ∧
    ((finalize sqrt_floor (parallel_region scan_plain [[file_2000], [file_1990s]])).map
        (fun e => e.start_year)).count (1900 + 10 * ((9 : Nat) : Int))
      = if 0 < (parallel_region scan_plain [[file_2000], [file_1990s]]).count_rows 9
          then 1 else 0 :=
  ⟨(finalize_shape sqrt_floor (parallel_region scan_plain [[file_2000], [file_1990s]])).1,
    (finalize_shape sqrt_floor (parallel_region scan_plain [[file_2000], [file_1990s]])).2.2 9
      (by decide)⟩

/-! ## The printed mean price -/

/-- C6: when every file has at least two parsed rows and every row has its
year in 1900..2100 and open, high, low, close in `[0.01, 10000.0]`, then for
every bucket that receives a row the printed mean price is the sum of the
mid prices of the rows of that bucket over all files, divided by their
number, and lies in `[0.01, 10000.0]`. -/
theorem mean_price_spec (scan : List Char → Option StockData) (csqrt : ℚ → ℚ)
    (sched : List (List (Option (List Char))))
    (h2 : ∀ f ∈ sched.flatten, 2 ≤ (read_csv scan f).1)
    (hv : ∀ r ∈ all_rows scan sched, valid_row r = true)
    (d : Nat) (hne : (all_rows scan sched).filter (in_bucket d) ≠ []) :
    ∃ e ∈ finalize csqrt (parallel_region scan sched),
      e.start_year = 1900 + 10 * (d : Int) ∧
      e.rows = ((all_rows scan sched).filter (in_bucket d)).length ∧
      (parallel_region scan sched).sum_avg d
        = (((all_rows scan sched).filter (in_bucket d)).map mid_price).sum ∧
      e.mean_price = (((all_rows scan sched).filter (in_bucket d)).map mid_price).sum
        / ((all_rows scan sched).filter (in_bucket d)).length ∧
      e.mean_price = (parallel_region scan sched).sum_avg d
        / (parallel_region scan sched).count_rows d ∧
      1 / 100 ≤ e.mean_price ∧ e.mean_price ≤ 10000 := by
  have hfilter : (all_rows scan sched).filter (price_counted d)
      = (all_rows scan sched).filter (in_bucket d) :=
    List.filter_congr (fun r hr => valid_row_price_counted r d (hv r hr))
  have ht := files_price_totals scan sched.flatten h2 d
  rw [← parallel_region_eq_sum] at ht
  have hrows : (parallel_region scan sched).count_rows d
      = ((all_rows scan sched).filter (in_bucket d)).length := by
    rw [ht.1, ← hfilter]
    rfl
  have hsum : (parallel_region scan sched).sum_avg d
      = (((all_rows scan sched).filter (in_bucket d)).map mid_price).sum := by
    rw [ht.2, ← hfilter]
    rfl
  have hpos : 0 < ((all_rows scan sched).filter (in_bucket d)).length :=
    List.length_pos.mpr hne
  have hd : d < MAX_DECADES := by
    obtain ⟨r, hr⟩ := List.exists_mem_of_ne_nil _ hne
    rw [List.mem_filter] at hr
    exact bucket_of_lt r d (by simpa [in_bucket] using hr.2)
  obtain ⟨e, he, hs, -, hr, hm, -⟩ :=
    report_decade_of_rows csqrt (parallel_region scan sched) d (by omega)
  have hmean : e.mean_price = (((all_rows scan sched).filter (in_bucket d)).map mid_price).sum
      / ((all_rows scan sched).filter (in_bucket d)).length := by
    rw [hm, hsum, hrows]
  have hb := list_mean_bounds (((all_rows scan sched).filter (in_bucket d)).map mid_price)
    (1 / 100) 10000 (by simpa using hne) (by
      intro x hx
      rw [List.mem_map] at hx
      obtain ⟨r, hr, rfl⟩ := hx
      exact valid_row_mid_price r (hv r (List.mem_of_mem_filter hr)))
  rw [List.length_map] at hb
  refine ⟨e, mem_finalize csqrt _ d hd e he, hs, by rw [hr, hrows], hsum, hmean, hm, ?_, ?_⟩
  · rw [hmean]
    exact hb.1
  · rw [hmean]
    exact hb.2

/-- C6, for the files of the 1990s and of 2000 on two threads, at the decade
1990-1999, which receives four rows. -/
theorem mean_price_spec_witness :
    (∀ f ∈ [[file_2000], [file_1990s]].flatten, 2 ≤ (read_csv scan_plain f).1) ∧
    (∀ r ∈ all_rows scan_plain [[file_2000], [file_1990s]], valid_row r = true) ∧
    ((all_rows scan_plain [[file_2000], [file_1990s]]).filter (in_bucket 9)).length = 4 ∧
    ∃ e ∈ finalize sqrt_floor (parallel_region scan_plain [[file_2000], [file_1990s]]),
      e.start_year = 1900 + 10 * ((9 : Nat) : Int) ∧
      e.rows = ((all_rows scan_plain [[file_2000], [file_1990s]]).filter (in_bucket 9)).length ∧
      e.mean_price = 5739 / 64 := by
  have h2 : ∀ f ∈ [[file_2000], [file_1990s]].flatten, 2 ≤ (read_csv scan_plain f).1 := by
    decide
  have hv : ∀ r ∈ all_rows scan_plain [[file_2000], [file_1990s]], valid_row r = true := by
    decide!
  have hlen : ((all_rows scan_plain [[file_2000], [file_1990s]]).filter (in_bucket 9)).length
      = 4 := by decide
  obtain ⟨e, he, hs, hr, -, -, hm, -⟩ :=
    mean_price_spec scan_plain sqrt_floor [[file_2000], [file_1990s]] h2 hv 9
      (by rw [← List.length_pos, hlen]; decide)
  refine ⟨h2, hv, hlen, e, he, hs, hr, ?_⟩
  rw [hm]
  decide!

/-! ## Skipped files -/

/-- C10: a file that cannot be opened, or of which at most one row parses,
leaves the accumulator of its thread as it was, and the global accumulator
is the one of the same schedule without that file. -/
theorem skipped_file_noop (scan : List Char → Option StockData) (f : Option (List Char))
    (h : f = none ∨ (read_csv scan f).1 ≤ 1) :
    (∀ loc : Accumulator, process_file scan loc f = loc) ∧
    (∀ pre post : List (Option (List Char)),
      worker scan (pre ++ f :: post) = worker scan (pre ++ post)) ∧
    (∀ (before after : List (List (Option (List Char))))
        (pre post : List (Option (List Char))),
      parallel_region scan (before ++ (pre ++ f :: post) :: after)
        = parallel_region scan (before ++ (pre ++ post) :: after)) := by
  have hcount : (read_csv scan f).1 ≤ 1 := by
    rcases h with h | h
    · rw [h]
      exact Nat.zero_le 1
    · exact h
  have hskip : ∀ loc : Accumulator, process_file scan loc f = loc := by
    intro loc
    unfold process_file
    exact accumulate_file_skip loc (read_csv scan f).1 (read_csv scan f).2 (Or.inl hcount)
  refine ⟨hskip, ?_, ?_⟩
  · intro pre post
    rw [worker_eq_sum, worker_eq_sum]
    simp [hskip 0]
  · intro before after pre post
    rw [parallel_region_eq_sum, parallel_region_eq_sum]
    simp [hskip 0]

/-- C10, for the file that cannot be opened and for the file of a header and
one valid row of 1995, which adds nothing next to the file of the 1990s. -/
theorem skipped_file_noop_witness :
    (read_csv scan_plain file_one_row).1 = 1 ∧
    ((parsed_rows scan_plain file_one_row).filter valid_row).length = 1 ∧
    parallel_region scan_plain ([] ++ ([file_1990s] ++ file_one_row :: []) :: [])
      = parallel_region scan_plain ([] ++ ([file_1990s] ++ []) :: []) ∧
    parallel_region scan_plain ([] ++ ([] ++ none :: [file_1990s]) :: [])
      = parallel_region scan_plain ([] ++ ([] ++ [file_1990s]) :: []) :=
  ⟨by decide, by decide!,
    (skipped_file_noop scan_plain file_one_row (Or.inr (by decide))).2.2 [] [] [file_1990s] [],
    (skipped_file_noop scan_plain none (Or.inl rfl)).2.2 [] [] [] [file_1990s]⟩

/-! ## Rows out of the year range -/

/-- C11, as stated, fails: the row of 1899 follows a row of 1999, and its
close, 110 or 90, is the second close of the pair that the row of 1999
starts, so the return sum of the decade 1990-1999 is 1/10 or -1/10. -/
theorem out_of_range_row_counterexample :
    (∀ r ∈ (rows_1999_1899 110).drop 1, out_of_range r = true) ∧
    (rows_1999_1899 110).map (fun r => (r.date, r.open_, r.high, r.low, r.volume))
      = (rows_1999_1899 90).map (fun r => (r.date, r.open_, r.high, r.low, r.volume)) ∧
    (rows_1999_1899 110).take 1 = (rows_1999_1899 90).take 1 ∧
    (accumulate_file Accumulator.empty (2, some (rows_1999_1899 110))).sum_ret 9 = 1 / 10 ∧
    (accumulate_file Accumulator.empty (2, some (rows_1999_1899 90))).sum_ret 9 = -1 / 10 := by
  refine ⟨by decide, by decide!, rfl, by decide!, by decide!⟩

/-- C11, amended: a row whose year is below 1900 or above 2100 adds nothing
to the price arrays, and the accumulator after the file does not depend on
its open, high, low or volume; it does not depend on its close either when
the row is the first of the file or the row before it has no bucket. -/
theorem out_of_range_row_amended (loc : Accumulator) (pre post : List StockData)
    (r r' : StockData) (hr : out_of_range r = true) (hdate : r'.date = r.date)
    (hclose : r'.close = r.close ∨ ∀ p, pre.getLast? = some p → bucket_of p = none) :
    price_step loc r = loc ∧
    accumulate_file loc ((pre ++ r' :: post).length, some (pre ++ r' :: post))
      = accumulate_file loc ((pre ++ r :: post).length, some (pre ++ r :: post)) :=
  ⟨price_step_no_bucket loc r (out_of_range_bucket r hr),
    accumulate_file_replace loc pre post r r' (out_of_range_bucket r hr) hdate hclose⟩

/-- C11 amended, on the sample rows: the row of 1899 gets other prices and
another volume and keeps its close. -/
theorem out_of_range_row_amended_witness :
    out_of_range
      { date := "1899-01-03", open_ := 100, high := 106, low := 99, close := 105, volume := 5 }
      = true ∧
    accumulate_file Accumulator.empty
        ((sample_rows.take 2 ++
            { date := "1899-01-03", open_ := 7, high := 8, low := 6, close := 105, volume := 0 }
              :: sample_rows.drop 3).length,
          some (sample_rows.take 2 ++
            { date := "1899-01-03", open_ := 7, high := 8, low := 6, close := 105, volume := 0 }
              :: sample_rows.drop 3))
      = accumulate_file Accumulator.empty
        ((sample_rows.take 2 ++
            { date := "1899-01-03", open_ := 100, high := 106, low := 99, close := 105,
              volume := 5 } :: sample_rows.drop 3).length,
          some (sample_rows.take 2 ++
            { date := "1899-01-03", open_ := 100, high := 106, low := 99, close := 105,
              volume := 5 } :: sample_rows.drop 3)) :=
  ⟨by decide,
    (out_of_range_row_amended Accumulator.empty (sample_rows.take 2) (sample_rows.drop 3)
      { date := "1899-01-03", open_ := 100, high := 106, low := 99, close := 105, volume := 5 }
      { date := "1899-01-03", open_ := 7, high := 8, low := 6, close := 105, volume := 0 }
      (by decide) rfl (Or.inl rfl)).2⟩

/-! ## The rows of a file -/

/-- C12: for a file that opens and whose lines are each shorter than 256
characters, `read_csv` leaves the first line aside and returns, in file
order, the rows of the later lines on which the conversion delivers all
seven fields; the count is the number of these lines, a line that fails is
passed over and the lines after it are still read.  A row has no field for
the adjusted close.  On the example text the first line would convert and is
not returned, and other adjusted closes give the same rows. -/
theorem read_csv_rows (scan : List Char → Option StockData) (text : List Char)
    (h : ∀ l ∈ split_lines text [], l.length < 256) :
    read_csv scan (some text)
      = ((((split_lines text []).drop 1).filterMap scan).length,
          if ((split_lines text []).drop 1).isEmpty then none
          else some (((split_lines text []).drop 1).filterMap scan)) ∧
    parsed_rows scan (some text) = ((split_lines text []).drop 1).filterMap scan ∧
    (read_csv scan (some text)).1
      = (((split_lines text []).drop 1).filter (fun l => (scan l).isSome)).length ∧
    ((split_lines text_row_first []).head?.bind scan_plain).isSome = true ∧
    (parsed_rows scan_plain (some text_row_first)).map
        (fun r => (r.date, r.open_, r.high, r.low, r.close, r.volume))
      = [("1995-01-03", 100, 101, 99, 100, 5000), ("1996-01-03", 201 / 2, 106, 99, 105, 5000)] ∧
    (parsed_rows scan_plain (some text_row_first_adj)).map
        (fun r => (r.date, r.open_, r.high, r.low, r.close, r.volume))
      = (parsed_rows scan_plain (some text_row_first)).map
        (fun r => (r.date, r.open_, r.high, r.low, r.close, r.volume)) := by
  have hl := read_csv_lines scan text h
  refine ⟨hl, ?_, ?_, by decide!, by decide!, by decide!⟩
  · unfold parsed_rows
    rw [hl]
    simp only []
    split_ifs with he
    · rw [List.isEmpty_iff.mp he]
      rfl
    · rfl
  · rw [hl]
    exact length_filterMap_eq_filter scan _

/-- C12, on the example text of four lines. -/
theorem read_csv_rows_witness :
    (∀ l ∈ split_lines text_row_first [], l.length < 256) ∧
    (split_lines text_row_first []).length = 4 ∧
    (read_csv scan_plain (some text_row_first)).1
      = (((split_lines text_row_first []).drop 1).filter
          (fun l => (scan_plain l).isSome)).length ∧
    (read_csv scan_plain (some text_row_first)).1 = 2 :=
  ⟨by decide, by decide, (read_csv_rows scan_plain text_row_first (by decide)).2.2.1,
    by decide⟩

/-- C14: for a year of 1900..2100 with bucket `d`, the printed block of `d`
has `start_year = 1900 + 10 * d` and `end_year = start_year + 9`, and the
year lies between them; another year with a bucket is in the same bucket
exactly when it lies in that span; and a row counted in the price pass, or
the first row of a pair counted in the return pass, has its year in the
span of its bucket. -/
theorem decade_label (year : Int) (d : Nat) (h : classify year = some d) :
    (∀ (csqrt : ℚ → ℚ) (g : Accumulator), g.count_rows d ≠ 0 →
      ∃ e, report_decade csqrt g d = some e ∧
        e.start_year = 1900 + 10 * (d : Int) ∧ e.end_year = e.start_year + 9 ∧
        e.start_year ≤ year ∧ year ≤ e.end_year) ∧
    (∀ (year2 : Int) (d2 : Nat), classify year2 = some d2 →
      (d2 = d ↔ 1900 + 10 * (d : Int) ≤ year2 ∧ year2 ≤ 1900 + 10 * (d : Int) + 9)) ∧
    (∀ r : StockData, price_counted d r = true →
      ∃ y, sscanf_d r.date = some y ∧
        1900 + 10 * (d : Int) ≤ y ∧ y ≤ 1900 + 10 * (d : Int) + 9) ∧
    (∀ cur next : StockData, return_counted d cur next = true →
      ∃ y, sscanf_d cur.date = some y ∧
        1900 + 10 * (d : Int) ≤ y ∧ y ≤ 1900 + 10 * (d : Int) + 9) := by
  have hspan := classify_span year d h
  refine ⟨?_, ?_, ?_, ?_⟩
  · intro csqrt g hrows
    obtain ⟨e, he, hs, hend, -⟩ := report_decade_of_rows csqrt g d hrows
    refine ⟨e, he, hs, by rw [hend, hs], by rw [hs]; exact hspan.1, ?_⟩
    rw [hend]
    exact hspan.2
  · intro year2 d2 h2
    have hspan2 := classify_span year2 d2 h2
    constructor
    · intro hd
      subst hd
      exact hspan2
    · intro hin
      omega
  · intro r hr
    unfold price_counted at hr
    simp only [decide_eq_true_eq] at hr
    exact bucket_of_span r d hr.1
  · intro cur next hr
    unfold return_counted at hr
    simp only [decide_eq_true_eq] at hr
    exact bucket_of_span cur d hr.1

/-- C14, at the year 2100, the only year of the last bucket, and at the
block of the decade 1990-1999 for the year 1995. -/
theorem decade_label_witness :
    classify 2100 = some 20 ∧
    (∀ (year2 : Int) (d2 : Nat), classify year2 = some d2 →
      (d2 = 20 ↔ 1900 + 10 * ((20 : Nat) : Int) ≤ year2 ∧
        year2 ≤ 1900 + 10 * ((20 : Nat) : Int) + 9)) ∧
    classify 1995 = some 9 ∧
    ∃ e, report_decade sqrt_floor (parallel_region scan_plain [[file_1990s]]) 9 = some e ∧
      e.start_year = 1900 + 10 * ((9 : Nat) : Int) ∧ e.end_year = e.start_year + 9 ∧
      e.start_year ≤ 1995 ∧ 1995 ≤ e.end_year :=
  ⟨by decide, (decade_label 2100 20 (by decide)).2.1, by decide,
    (decade_label 1995 9 (by decide)).1 sqrt_floor (parallel_region scan_plain [[file_1990s]])
      (by decide!)⟩

/-! ## Reachable return statistics -/

/-- C17: after any run, the return arrays of a bucket are the number, the
sum and the sum of the squares of the same returns, so where
`count_ret > 0` the unclamped variance is not negative and the clamp leaves
it as it is. -/
theorem variance_nonneg_reachable (scan : List Char → Option StockData)
    (sched : List (List (Option (List Char)))) (d : Nat)
    (hret : 0 < (parallel_region scan sched).count_ret d) :
    (parallel_region scan sched).count_ret d = (all_returns scan sched d).length ∧
    (parallel_region scan sched).sum_ret d = (all_returns scan sched d).sum ∧
    (parallel_region scan sched).sum_ret_sq d
      = ((all_returns scan sched d).map (fun r => r * r)).sum ∧
    0 ≤ (parallel_region scan sched).sum_ret_sq d / (parallel_region scan sched).count_ret d
        - ((parallel_region scan sched).sum_ret d
            / (parallel_region scan sched).count_ret d) ^ 2 ∧
    clamped_var ((parallel_region scan sched).sum_ret d)
        ((parallel_region scan sched).sum_ret_sq d) ((parallel_region scan sched).count_ret d)
      = raw_var ((parallel_region scan sched).sum_ret d)
        ((parallel_region scan sched).sum_ret_sq d)
        ((parallel_region scan sched).count_ret d) := by
  have ht := parallel_region_return_totals scan sched d
  have hlen : 0 < (all_returns scan sched d).length := by
    rw [← ht.1]
    exact hret
  have hnn := raw_var_nonneg (all_returns scan sched d) hlen
  rw [← ht.1, ← ht.2.1, ← ht.2.2] at hnn
  refine ⟨ht.1, ht.2.1, ht.2.2, ?_, ?_⟩
  · have hraw : raw_var ((parallel_region scan sched).sum_ret d)
        ((parallel_region scan sched).sum_ret_sq d) ((parallel_region scan sched).count_ret d)
        = (parallel_region scan sched).sum_ret_sq d / (parallel_region scan sched).count_ret d
          - ((parallel_region scan sched).sum_ret d
              / (parallel_region scan sched).count_ret d) ^ 2 := by
      unfold raw_var
      simp only [pow_two]
    rw [← hraw]
    exact hnn
  · unfold clamped_var
    simp only []
    rw [if_neg (not_lt.mpr hnn)]

/-- C17, at the decade 1990-1999 of the file of three rows. -/
theorem variance_nonneg_reachable_witness :
    0 < (parallel_region scan_plain [[file_1990s]]).count_ret 9 ∧
    (parallel_region scan_plain [[file_1990s]]).sum_ret_sq 9
        / (parallel_region scan_plain [[file_1990s]]).count_ret 9
        - ((parallel_region scan_plain [[file_1990s]]).sum_ret 9
            / (parallel_region scan_plain [[file_1990s]]).count_ret 9) ^ 2 = 1 / 705600 ∧
    0 ≤ (parallel_region scan_plain [[file_1990s]]).sum_ret_sq 9
        / (parallel_region scan_plain [[file_1990s]]).count_ret 9
        - ((parallel_region scan_plain [[file_1990s]]).sum_ret 9
            / (parallel_region scan_plain [[file_1990s]]).count_ret 9) ^ 2 :=
  ⟨by decide!, by decide!,
    (variance_nonneg_reachable scan_plain [[file_1990s]] 9 (by decide!)).2.2.2.1⟩

/-- C18: every return that a run accumulates lies in `(-1, 1]`; so where
`count_ret > 0` the mean return lies in `(-1, 1]`, the base `1 + mean` of the
power is positive, the annual return is above -1, `sum_ret_sq ≤ count_ret`,
the argument of `sqrt` is at most 1, and the printed volatility is at most 1
for a square root that stays below 1 on `[0, 1]`. -/
theorem return_bounds (scan : List Char → Option StockData) (csqrt : ℚ → ℚ)
    (hs1 : ∀ x : ℚ, 0 ≤ x → x ≤ 1 → csqrt x ≤ 1)
    (sched : List (List (Option (List Char)))) (d : Nat)
    (hret : 0 < (parallel_region scan sched).count_ret d) :
    (∀ r ∈ all_returns scan sched d, -1 < r ∧ r ≤ 1) ∧
    (parallel_region scan sched).count_ret d = (all_returns scan sched d).length ∧
    (parallel_region scan sched).sum_ret d = (all_returns scan sched d).sum ∧
    (parallel_region scan sched).sum_ret_sq d
      = ((all_returns scan sched d).map (fun r => r * r)).sum ∧
    -1 < (parallel_region scan sched).sum_ret d / (parallel_region scan sched).count_ret d ∧
    (parallel_region scan sched).sum_ret d / (parallel_region scan sched).count_ret d ≤ 1 ∧
    0 < 1 + (parallel_region scan sched).sum_ret d
          / (parallel_region scan sched).count_ret d ∧
    -1 < (1 + (parallel_region scan sched).sum_ret d
          / (parallel_region scan sched).count_ret d) ^ 252 - 1 ∧
    (parallel_region scan sched).sum_ret_sq d ≤ (parallel_region scan sched).count_ret d ∧
    clamped_var ((parallel_region scan sched).sum_ret d)
        ((parallel_region scan sched).sum_ret_sq d)
        ((parallel_region scan sched).count_ret d) ≤ 1 ∧
    (∀ e, report_decade csqrt (parallel_region scan sched) d = some e →
      e.vol ≤ 1 ∧
      ∃ m a, e.mean_r = some m ∧ -1 < m ∧ m ≤ 1 ∧ e.annual_r = some a ∧ -1 < a) := by
  have hb := all_returns_bounds scan sched d
  have ht := parallel_region_return_totals scan sched d
  have hlen : 0 < (all_returns scan sched d).length := by
    rw [← ht.1]
    exact hret
  have hn : (0 : ℚ) < (parallel_region scan sched).count_ret d := by exact_mod_cast hret
  have hne : all_returns scan sched d ≠ [] := List.length_pos.mp hlen
  have hlow := (list_sum_gt_neg_length (all_returns scan sched d) (fun r hr => (hb r hr).1)).2 hne
  have hup := (list_sum_bounds (all_returns scan sched d) (-1) 1
    (fun r hr => ⟨le_of_lt (hb r hr).1, (hb r hr).2⟩)).2
  rw [← ht.1, ← ht.2.1] at hlow hup
  have hsq := (list_sum_bounds ((all_returns scan sched d).map (fun r => r * r)) 0 1 (by
    intro y hy
    rw [List.mem_map] at hy
    obtain ⟨r, hr, rfl⟩ := hy
    have h1 := (hb r hr).1
    have h2 := (hb r hr).2
    exact ⟨mul_self_nonneg r, by nlinarith⟩))
  rw [List.length_map, ← ht.1, ← ht.2.2] at hsq
  have hm1 : -1 < (parallel_region scan sched).sum_ret d
      / (parallel_region scan sched).count_ret d := by
    rw [lt_div_iff₀ hn]
    linarith
  have hm2 : (parallel_region scan sched).sum_ret d
      / (parallel_region scan sched).count_ret d ≤ 1 := by
    rw [div_le_iff₀ hn]
    linarith
  have hbase : 0 < 1 + (parallel_region scan sched).sum_ret d
      / (parallel_region scan sched).count_ret d := by linarith
  have hann : -1 < (1 + (parallel_region scan sched).sum_ret d
      / (parallel_region scan sched).count_ret d) ^ 252 - 1 := by
    have := pow_pos hbase 252
    linarith
  have hq : (parallel_region scan sched).sum_ret_sq d
      ≤ (parallel_region scan sched).count_ret d := by linarith [hsq.2]
  have hnn := raw_var_nonneg (all_returns scan sched d) hlen
  rw [← ht.1, ← ht.2.1, ← ht.2.2] at hnn
  have hraw1 : raw_var ((parallel_region scan sched).sum_ret d)
      ((parallel_region scan sched).sum_ret_sq d)
      ((parallel_region scan sched).count_ret d) ≤ 1 := by
    unfold raw_var
    simp only []
    have h1 : (parallel_region scan sched).sum_ret_sq d
        / (parallel_region scan sched).count_ret d ≤ 1 := by
      rw [div_le_iff₀ hn]
      linarith
    have h2 := mul_self_nonneg ((parallel_region scan sched).sum_ret d
      / (parallel_region scan sched).count_ret d)
    linarith
  have hcl : clamped_var ((parallel_region scan sched).sum_ret d)
      ((parallel_region scan sched).sum_ret_sq d)
      ((parallel_region scan sched).count_ret d)
      = raw_var ((parallel_region scan sched).sum_ret d)
        ((parallel_region scan sched).sum_ret_sq d)
        ((parallel_region scan sched).count_ret d) := by
    unfold clamped_var
    simp only []
    rw [if_neg (not_lt.mpr hnn)]
  refine ⟨hb, ht.1, ht.2.1, ht.2.2, hm1, hm2, hbase, hann, hq, by rw [hcl]; exact hraw1, ?_⟩
  intro e he
  have hrows : (parallel_region scan sched).count_rows d ≠ 0 := by
    intro h0
    rw [report_decade_of_no_rows csqrt _ d h0] at he
    cases he
  obtain ⟨e', he', -, -, -, -, hv, hm, ha⟩ :=
    report_decade_of_rows csqrt (parallel_region scan sched) d hrows
  rw [he] at he'
  cases he'
  rw [if_pos hret] at hv hm ha
  refine ⟨?_, _, _, hm, hm1, hm2, ha, hann⟩
  rw [hv, hcl]
  exact hs1 _ hnn hraw1

/-- C18, at the decade 1990-1999 of the file of three rows. -/
theorem return_bounds_witness :
    (∀ x : ℚ, 0 ≤ x → x ≤ 1 → sqrt_floor x ≤ 1) ∧
    0 < (parallel_region scan_plain [[file_1990s]]).count_ret 9 ∧
    all_returns scan_plain [[file_1990s]] 9 = [1 / 20, 1 / 21] ∧
    (parallel_region scan_plain [[file_1990s]]).sum_ret_sq 9
      ≤ (parallel_region scan_plain [[file_1990s]]).count_ret 9 ∧
    -1 < (parallel_region scan_plain [[file_1990s]]).sum_ret 9
        / (parallel_region scan_plain [[file_1990s]]).count_ret 9 :=
  ⟨sqrt_floor_le_one, by decide!, by decide!,
    (return_bounds scan_plain sqrt_floor sqrt_floor_le_one [[file_1990s]] 9
      (by decide!)).2.2.2.2.2.2.2.2.1,
    (return_bounds scan_plain sqrt_floor sqrt_floor_le_one [[file_1990s]] 9
      (by decide!)).2.2.2.2.1⟩

/-! ## One file, one decade -/

/-- C16: the two passes filter independently.  A pair whose first row has
bucket `d`, whose closes are at least `0.01` and whose return is at most 1 in
absolute value adds its return to bucket `d`, whatever the opens and however
large the closes; a row of bucket `d` with open and close in
`[0.01, 10000.0]` is counted in the price pass, whatever the rows next to it.
Two rows with opens of 20000 give one return and no counted row; two rows
with the closes 100 and 300 give two counted rows and no return. -/
theorem independent_filters (d : Nat) :
    (∀ (loc : Accumulator) (cur next : StockData), bucket_of cur = some d →
      1 / 100 ≤ cur.close → 1 / 100 ≤ next.close →
      |(next.close - cur.close) / cur.close| ≤ 1 →
      (return_step loc cur next).count_ret d = loc.count_ret d + 1 ∧
      (return_step loc cur next).sum_ret d
        = loc.sum_ret d + (next.close - cur.close) / cur.close ∧
      (return_step loc cur next).sum_ret_sq d
        = loc.sum_ret_sq d
          + (next.close - cur.close) / cur.close * ((next.close - cur.close) / cur.close)) ∧
    (∀ (data : List StockData) (j : Nat) (cur next : StockData), 2 ≤ data.length →
      data[j]? = some cur → data[j + 1]? = some next → bucket_of cur = some d →
      1 / 100 ≤ cur.close → 1 / 100 ≤ next.close →
      |(next.close - cur.close) / cur.close| ≤ 1 →
      j ∈ (List.range (data.length - 1)).filter (pair_counted data d) ∧
      (accumulate_file Accumulator.empty (data.length, some data)).count_ret d
        = ((List.range (data.length - 1)).filter (pair_counted data d)).length) ∧
    (∀ (loc : Accumulator) (r : StockData), bucket_of r = some d →
      1 / 100 ≤ r.open_ → r.open_ ≤ 10000 → 1 / 100 ≤ r.close → r.close ≤ 10000 →
      (price_step loc r).count_rows d = loc.count_rows d + 1 ∧
      (price_step loc r).sum_avg d
        = loc.sum_avg d + (r.open_ + r.high + r.low + r.close) / 4) ∧
    (∀ (data : List StockData) (r : StockData), 2 ≤ data.length → r ∈ data →
      bucket_of r = some d →
      1 / 100 ≤ r.open_ → r.open_ ≤ 10000 → 1 / 100 ≤ r.close → r.close ≤ 10000 →
      r ∈ data.filter (price_counted d) ∧
      (accumulate_file Accumulator.empty (data.length, some data)).count_rows d
        = (data.filter (price_counted d)).length) ∧
    (accumulate_file Accumulator.empty (2, some rows_open_20000)).count_ret 9 = 1 ∧
    (accumulate_file Accumulator.empty (2, some rows_open_20000)).sum_ret 9 = 1 / 20 ∧
    (accumulate_file Accumulator.empty (2, some rows_open_20000)).count_rows 9 = 0 ∧
    (accumulate_file Accumulator.empty (2, some rows_jump)).count_rows 9 = 2 ∧
    (accumulate_file Accumulator.empty (2, some rows_jump)).count_ret 9 = 0 := by
  have hret : ∀ cur next : StockData, bucket_of cur = some d →
      1 / 100 ≤ cur.close → 1 / 100 ≤ next.close →
      |(next.close - cur.close) / cur.close| ≤ 1 → return_counted d cur next = true := by
    intro cur next hb hp hq hr
    unfold return_counted simple_return
    exact decide_eq_true ⟨hb, hp, hq, hr⟩
  have hprice : ∀ r : StockData, bucket_of r = some d →
      1 / 100 ≤ r.open_ → r.open_ ≤ 10000 → 1 / 100 ≤ r.close → r.close ≤ 10000 →
      price_counted d r = true := by
    intro r hb h1 h2 h3 h4
    unfold price_counted
    exact decide_eq_true ⟨hb, h1, h2, h3, h4⟩
  refine ⟨?_, ?_, ?_, ?_, by decide!, by decide!, by decide!, by decide!, by decide!⟩
  · intro loc cur next hb hp hq hr
    have hf := return_step_fields loc cur next d
    rw [hret cur next hb hp hq hr] at hf
    simpa [simple_return] using ⟨hf.1, hf.2.1, hf.2.2.1⟩
  · intro data j cur next h2 hc hn hb hp hq hr
    refine ⟨?_, (accumulate_file_totals data h2 d).2.2.1⟩
    rw [List.mem_filter, List.mem_range]
    constructor
    · have hlt : j + 1 < data.length := (List.getElem?_eq_some_iff.mp hn).1
      omega
    · unfold pair_counted
      rw [hc, hn]
      exact hret cur next hb hp hq hr
  · intro loc r hb h1 h2 h3 h4
    have hadd := price_step_add loc r
    have hc := price_step_count_rows r d
    have ha := price_step_sum_avg r d
    rw [hprice r hb h1 h2 h3 h4] at hc ha
    rw [hadd, add_count_rows, add_sum_avg, hc, ha]
    exact ⟨rfl, rfl⟩
  · intro data r h2 hmem hb h1 h2' h3 h4
    refine ⟨?_, (accumulate_file_totals data h2 d).1⟩
    rw [List.mem_filter]
    exact ⟨hmem, hprice r hb h1 h2' h3 h4⟩

/-- C16, on the rows with opens of 20000 and on the rows with the closes 100
and 300, in bucket 9. -/
theorem independent_filters_witness :
    (return_step Accumulator.empty
        { date := "1995-01-03", open_ := 20000, high := 20000, low := 99, close := 100,
          volume := 1 }
        { date := "1995-01-04", open_ := 20000, high := 20000, low := 99, close := 105,
          volume := 1 }).count_ret 9
      = Accumulator.empty.count_ret 9 + 1 ∧
    (price_step Accumulator.empty
        { date := "1995-01-04", open_ := 300, high := 300, low := 300, close := 300,
          volume := 1 }).count_rows 9
      = Accumulator.empty.count_rows 9 + 1 :=
  ⟨((independent_filters 9).1 Accumulator.empty
      { date := "1995-01-03", open_ := 20000, high := 20000, low := 99, close := 100,
        volume := 1 }
      { date := "1995-01-04", open_ := 20000, high := 20000, low := 99, close := 105,
        volume := 1 }
      (by decide) (by decide!) (by decide!) (by decide!)).1,
    ((independent_filters 9).2.2.1 Accumulator.empty
      { date := "1995-01-04", open_ := 300, high := 300, low := 300, close := 300,
        volume := 1 }
      (by decide) (by decide!) (by decide!) (by decide!) (by decide!)).1⟩

/-! ## Returns without a printed block -/

/-- C19: for the file of two rows of 1995 with opens of 20000 and the closes
100 and 105, the run ends with one return and no row in bucket 9, and the
finalization prints no block at all, so the return of that decade is
nowhere in the output; in general a bucket without rows prints nothing,
whatever its returns. -/
theorem returns_lost (csqrt : ℚ → ℚ) :
    (parallel_region scan_plain [[file_open_20000]]).count_ret 9 = 1 ∧
    0 < (parallel_region scan_plain [[file_open_20000]]).count_ret 9 ∧
    (parallel_region scan_plain [[file_open_20000]]).sum_ret 9 = 1 / 20 ∧
    (parallel_region scan_plain [[file_open_20000]]).count_rows 9 = 0 ∧
    report_decade csqrt (parallel_region scan_plain [[file_open_20000]]) 9 = none ∧
    finalize csqrt (parallel_region scan_plain [[file_open_20000]]) = [] ∧
    (∀ (g : Accumulator) (d : Nat), g.count_rows d = 0 → report_decade csqrt g d = none) := by
  have hall : ∀ d, d < 21 →
      (parallel_region scan_plain [[file_open_20000]]).count_rows d = 0 := by decide!
  refine ⟨by decide!, by decide!, by decide!, hall 9 (by decide),
    report_decade_of_no_rows csqrt _ 9 (hall 9 (by decide)), ?_,
    fun g d h => report_decade_of_no_rows csqrt g d h⟩
  unfold finalize
  rw [List.filterMap_eq_nil_iff]
  intro d hd
  exact report_decade_of_no_rows csqrt _ d (hall d (List.mem_range.mp hd))

end OpenMp
